import Mathlib

/-!
Verification of the notebook-conversion and doc-build logic of the
`tutorial_tools` repository.  The Python sources
(`notebook/process_notebook.py`, `doxygen/make-docs.py`) are shallowly
embedded below: text is `List Char`, regular-expression matching is
replaced by hand-translations of each concrete pattern (greedy/lazy
semantics reproduced explicitly), the `refs` dictionary is an
association list with most-recent-first lookup, and fallible Python code
(raised exceptions, `KeyError`, `IndexError`) returns `Except`/`Option`.
-/

/-- Convert a string literal to the `List Char` representation used for all
embedded text. -/
def str (s : String) : List Char := s.data

/-- Python's `\s` whitespace class: space, tab, newline, carriage return,
vertical tab, form feed. -/
def isPySpace (c : Char) : Bool :=
  c == ' ' || c == '\t' || c == '\n' || c == '\r' || c == '\x0b' || c == '\x0c'

/-- Python's `str.startswith`, on character lists (first argument is the
pattern). -/
def lstartsWith : List Char → List Char → Bool
  | [], _ => true
  | _ :: _, [] => false
  | p :: ps, c :: cs => p == c && lstartsWith ps cs

theorem lstartsWith_append_eq (p c t : List Char) :
    lstartsWith p (c ++ t)
      = (lstartsWith (p.take c.length) c && lstartsWith (p.drop c.length) t) := by
  induction p generalizing c with
  | nil => simp [lstartsWith]
  | cons x xs ih =>
    cases c with
    | nil => simp [lstartsWith]
    | cons y ys =>
      simp only [List.cons_append, lstartsWith, List.length_cons, List.take_succ_cons,
        List.drop_succ_cons, List.append_eq]
      rw [ih ys]
      cases x == y <;> simp

theorem lsw_true_of (p c t : List Char) (h1 : p.length ≤ c.length)
    (h2 : lstartsWith p c = true) : lstartsWith p (c ++ t) = true := by
  rw [lstartsWith_append_eq, List.take_of_length_le h1, List.drop_eq_nil_of_le h1, h2]
  rfl

theorem lsw_false_of (p c t : List Char)
    (h2 : lstartsWith (p.take c.length) c = false) :
    lstartsWith p (c ++ t) = false := by
  rw [lstartsWith_append_eq, h2]
  rfl

theorem lstartsWith_iff_exists (p l : List Char) :
    lstartsWith p l = true ↔ ∃ t, l = p ++ t := by
  induction p generalizing l with
  | nil => simp [lstartsWith]
  | cons x xs ih =>
    cases l with
    | nil => simp [lstartsWith]
    | cons y ys =>
      simp only [lstartsWith, Bool.and_eq_true, beq_iff_eq, ih, List.cons_append,
        List.cons.injEq]
      constructor
      · rintro ⟨hx, t, ht⟩; exact ⟨t, hx.symm, ht⟩
      · rintro ⟨t, hx, ht⟩; exact ⟨hx.symm, t, ht⟩

/-- Decimal rendering of a natural number (the embedding of Python's `%d`
formatting). -/
def natCharsGo : Nat → Nat → List Char
  | 0, _ => []
  | fuel + 1, n =>
    if n < 10 then [Char.ofNat (48 + n)]
    else natCharsGo fuel (n / 10) ++ [Char.ofNat (48 + n % 10)]

def natChars (n : Nat) : List Char := natCharsGo (n + 1) n

theorem takeWhile_append_of_all {p : Char → Bool} {a : List Char} (b : List Char)
    (h : ∀ c ∈ a, p c = true) :
    (a ++ b).takeWhile p = a ++ b.takeWhile p := by
  induction a with
  | nil => simp
  | cons x xs ih =>
    have hx : p x = true := h x (by simp)
    simp only [List.cons_append, List.takeWhile_cons, hx, if_true]
    rw [ih (fun c hc => h c (by simp [hc]))]

theorem dropWhile_append_of_all {p : Char → Bool} {a : List Char} (b : List Char)
    (h : ∀ c ∈ a, p c = true) :
    (a ++ b).dropWhile p = b.dropWhile p := by
  induction a with
  | nil => simp
  | cons x xs ih =>
    have hx : p x = true := h x (by simp)
    simp only [List.cons_append, List.dropWhile_cons, hx, if_true]
    exact ih (fun c hc => h c (by simp [hc]))

theorem takeWhile_eq_nil_of_head {p : Char → Bool} {x : Char} (xs : List Char)
    (h : p x = false) : (x :: xs).takeWhile p = [] := by
  simp [List.takeWhile_cons, h]

theorem dropWhile_eq_self_of_head {p : Char → Bool} {x : Char} (xs : List Char)
    (h : p x = false) : (x :: xs).dropWhile p = x :: xs := by
  simp [List.dropWhile_cons, h]

/-- If some element of `a` falsifies `p`, then `dropWhile` on `a ++ b` stops
inside `a`. -/
theorem dropWhile_append_of_not_all {p : Char → Bool} {a : List Char} (b : List Char)
    (h : a.dropWhile p ≠ []) :
    (a ++ b).dropWhile p = a.dropWhile p ++ b := by
  induction a with
  | nil => simp at h
  | cons x xs ih =>
    by_cases hx : p x = true
    · simp only [List.cons_append, List.dropWhile_cons, hx, if_true]
      simp only [List.dropWhile_cons, hx, if_true] at h
      exact ih h
    · replace hx : p x = false := by simpa using hx
      simp [List.dropWhile_cons, hx]

/-!
## Generic left-to-right regex substitution

`re.sub` scans the text left to right; at each position it tries the
pattern, replaces a (non-empty) match and resumes after it, otherwise it
moves one character forward.  A matcher returns the replacement together
with the number of characters consumed; our concrete patterns always
consume at least one character, which the `n + 1` pattern enforces.  The
recursion is driven by a fuel initialised to the text length; because every
step strictly shortens the text, the fuel never runs out (the fuel-zero arm
is unreachable), as `reSubPGo_fuel`/`reSubEGo_fuel` make precise.
-/

/-- Pure `re.sub`: `m l` returns `some (replacement, consumed)` when the
pattern matches at the start of `l`. -/
def reSubPGo (m : List Char → Option (List Char × Nat)) : Nat → List Char → List Char
  | _, [] => []
  | 0, l => l
  | fuel + 1, c :: cs =>
    match m (c :: cs) with
    | some (r, n + 1) => r ++ reSubPGo m fuel (cs.drop n)
    | _ => c :: reSubPGo m fuel cs

def reSubP (m : List Char → Option (List Char × Nat)) (l : List Char) : List Char :=
  reSubPGo m l.length l

/-- `re.sub` whose replacement function may raise (Python exceptions become
`Except`); errors propagate from the leftmost failing match, as in Python. -/
def reSubEGo (m : List Char → Option (Except (List Char) (List Char) × Nat)) :
    Nat → List Char → Except (List Char) (List Char)
  | _, [] => .ok []
  | 0, l => .ok l
  | fuel + 1, c :: cs =>
    match m (c :: cs) with
    | some (r, n + 1) => do
        let rv ← r
        let tv ← reSubEGo m fuel (cs.drop n)
        .ok (rv ++ tv)
    | _ => do
        let tv ← reSubEGo m fuel cs
        .ok (c :: tv)

def reSubE (m : List Char → Option (Except (List Char) (List Char) × Nat))
    (l : List Char) : Except (List Char) (List Char) :=
  reSubEGo m l.length l

/-!
## The Link Resolver (`RefLinks` in `process_notebook.py`)

`self.refs` is a Python dict; we model it as an association list to which
insertions are prepended, looked up by the first (i.e. most recent)
matching key — this realises the dict's last-writer-wins semantics.
-/

/-- Dict lookup: value of the most recently inserted binding for `k`. -/
def refsGet (refs : List (List Char × List Char)) (k : List Char) :
    Option (List Char) :=
  (refs.find? (fun kv => kv.1 == k)).map (fun kv => kv.2)

/-- Dict insertion (prepend; `refsGet` sees the newest binding first). -/
def refsPut (refs : List (List Char × List Char)) (k v : List Char) :
    List (List Char × List Char) :=
  (k, v) :: refs

/-- Python's `ref.replace('.', '::')`. -/
def dotToColons : List Char → List Char
  | [] => []
  | c :: cs => (if c = '.' then [':', ':'] else [c]) ++ dotToColons cs

/-- `RefLinks._replace_ref_link` (the `m.group(1)` is the argument): look the
identifier up verbatim, then with `.` replaced by `::`; Python's `or` falls
through on a falsy (empty) URL and `if not link` raises `ValueError` for a
falsy result. -/
def replaceRefLink (refs : List (List Char × List Char)) (ref : List Char) :
    Except (List Char) (List Char) :=
  let l1 := refsGet refs ref
  let link :=
    match l1 with
    | some u => if u = [] then refsGet refs (dotToColons ref) else some u
    | none => refsGet refs (dotToColons ref)
  match link with
  | some u => if u = [] then .error (str "Bad @ref link to " ++ ref) else .ok u
  | none => .error (str "Bad @ref link to " ++ ref)

/-- The character class `[^\s)]` used by the `%%include` and `@ref` group. -/
def refClass (c : Char) : Bool := !isPySpace c && c != ')'

/-- The character class ``[^\s`]`` used by the backtick-link group. -/
def backtickClass (c : Char) : Bool := !isPySpace c && c != '`'

/-- Python's `txt.split('.')[-1]`: the suffix after the last `.`. -/
def lastSplitDot (l : List Char) : List Char :=
  (l.reverse.takeWhile (fun c => c != '.')).reverse

/-- Membership of the two-character separator `::` (for `split('::')`). -/
def containsColons : List Char → Bool
  | ':' :: ':' :: _ => true
  | _ :: rest => containsColons rest
  | [] => false

/-- Python's `txt.split('::')[-1]`: last element of the left-to-right,
non-overlapping split on `::`. -/
def lastSplitColons : List Char → List Char
  | [] => []
  | ':' :: ':' :: rest => lastSplitColons rest
  | c :: rest => if containsColons rest then lastSplitColons rest else c :: rest

/-- `RefLinks._replace_backtick_link` on the matched group `txt`. -/
def replaceBacktickLink (txt : List Char) : List Char :=
  if lstartsWith (str "~") txt then
    let short := lastSplitColons (lastSplitDot txt)
    str "[" ++ short ++ str "](@ref " ++ txt.tail ++ str ")"
  else
    str "[" ++ txt ++ str "](@ref " ++ txt ++ str ")"

/-- Matcher for `include_re = %%include\s+([^\s)]+)`; the replacement is the
contents of the named file in the ambient file system `fs` (a missing file
is Python's `IOError`). -/
def matchIncludeAt (fs : List (List Char × List Char)) (l : List Char) :
    Option (Except (List Char) (List Char) × Nat) :=
  if lstartsWith (str "%%include") l then
    let l1 := l.drop 9
    let ws := l1.takeWhile isPySpace
    if ws = [] then none
    else
      let l2 := l1.dropWhile isPySpace
      let g := l2.takeWhile refClass
      if g = [] then none
      else
        some (match refsGet fs g with
              | some contents => .ok contents
              | none => .error (str "No such file: " ++ g),
              9 + ws.length + g.length)
  else none

/-- Matcher for ``backtick_link = ``([^\s`]+)`` ``. -/
def matchBacktickAt (l : List Char) : Option (List Char × Nat) :=
  if lstartsWith (str "``") l then
    let l1 := l.drop 2
    let g := l1.takeWhile backtickClass
    if g = [] then none
    else if lstartsWith (str "``") (l1.drop g.length) then
      some (replaceBacktickLink g, 2 + g.length + 2)
    else none
  else none

/-- Matcher for `ref_link = @ref\s+([^\s)]+)`. -/
def matchRefAt (refs : List (List Char × List Char)) (l : List Char) :
    Option (Except (List Char) (List Char) × Nat) :=
  if lstartsWith (str "@ref") l then
    let l1 := l.drop 4
    let ws := l1.takeWhile isPySpace
    if ws = [] then none
    else
      let l2 := l1.dropWhile isPySpace
      let g := l2.takeWhile refClass
      if g = [] then none
      else some (replaceRefLink refs g, 4 + ws.length + g.length)
  else none

/-- The `%%include` pass of `RefLinks.fix_links`. -/
def subInclude (fs : List (List Char × List Char)) (c : List Char) :
    Except (List Char) (List Char) :=
  reSubE (matchIncludeAt fs) c

/-- The backtick pass of `RefLinks.fix_links` (never fails). -/
def subBacktick (c : List Char) : List Char :=
  reSubP matchBacktickAt c

/-- The `@ref` pass of `RefLinks.fix_links`. -/
def subRef (refs : List (List Char × List Char)) (c : List Char) :
    Except (List Char) (List Char) :=
  reSubE (matchRefAt refs) c

/-- `RefLinks.fix_links`: include expansion, then backtick links, then `@ref`
links, in that order. -/
def fixLinks (fs refs : List (List Char × List Char)) (c : List Char) :
    Except (List Char) (List Char) := do
  let c1 ← subInclude fs c
  let c2 := subBacktick c1
  subRef refs c2

/-!
## Notebook cells and conditional directives
-/

/-- One notebook cell: its kind (`"markdown"` or `"code"`) and its ordered
source lines.  Outputs must be empty on input, so they are not modelled. -/
structure Cell where
  cell_type : List Char
  source : List (List Char)
deriving DecidableEq

/-- Negation of Python's `\s` class, i.e. `\S`. -/
def nonSpace (c : Char) : Bool := !isPySpace c

/-- Greedy `\S+` followed by the literal `only`: the longest non-empty
all-non-space prefix of `l` that is immediately followed by `only`
(Python's backtracking tries the longest first). -/
def greedyOnly : Nat → List Char → Option (List Char)
  | 0, _ => none
  | j + 1, l =>
    if (l.take (j + 1)).all nonSpace && lstartsWith (str "only") (l.drop (j + 1)) then
      some (l.take (j + 1))
    else greedyOnly j l

/-- Try `%%(\S+)only` at the current position, returning `group(1)`. -/
def matchPctOnly : List Char → Option (List Char)
  | '%' :: '%' :: rest => greedyOnly rest.length rest
  | _ => none

/-- `re.search('%%(\S+)only', l)`: leftmost match wins, returning
`group(1)`. -/
def searchOnly : List Char → Option (List Char)
  | [] => none
  | c :: cs =>
    match matchPctOnly (c :: cs) with
    | some g => some g
    | none => searchOnly cs

/-- Python's substring test `needle in hay` on strings. -/
def containsSub (needle : List Char) : List Char → Bool
  | [] => needle.isEmpty
  | c :: cs => lstartsWith needle (c :: cs) || containsSub needle cs

/-- The per-cell keep decision of `get_cell_subset`: `some true`/`some false`
for yielded/dropped, `none` for the `IndexError` an empty-source cell
triggers (`cell['source'][0]` on an empty list). -/
def cellKeep (excludestr onlytype : List Char) (cell : Cell) : Option Bool :=
  match cell.source with
  | [] => none
  | first :: _ =>
    if containsSub excludestr first then some false
    else
      match searchOnly first with
      | none => some true
      | some g => some (g == onlytype)

/-- `get_cell_subset(cells, excludestr, onlytype)`, forced to a list. -/
def getCellSubset (excludestr onlytype : List Char) :
    List Cell → Option (List Cell)
  | [] => some []
  | c :: rest => do
    let k ← cellKeep excludestr onlytype c
    let r ← getCellSubset excludestr onlytype rest
    pure (if k then c :: r else r)

/-- `get_only_html_cells`. -/
def getOnlyHtmlCells (cells : List Cell) : Option (List Cell) :=
  getCellSubset (str "%%htmlexclude") (str "html") cells

/-- `get_only_notebook_cells`. -/
def getOnlyNotebookCells (cells : List Cell) : Option (List Cell) :=
  getCellSubset (str "%%nbexclude") (str "nb") cells

/-- `get_only_colab_cells`. -/
def getOnlyColabCells (cells : List Cell) : Option (List Cell) :=
  getCellSubset (str "%%colabexclude") (str "colab") cells

/-- The tail of `#?%%(html|nb|colab)(exclude|only)` after the `%%`. -/
def dirTail (t : List Char) : Bool :=
  lstartsWith (str "htmlexclude") t || lstartsWith (str "htmlonly") t ||
  lstartsWith (str "nbexclude") t || lstartsWith (str "nbonly") t ||
  lstartsWith (str "colabexclude") t || lstartsWith (str "colabonly") t

/-- `re.match('#?%%(html|nb|colab)(exclude|only)', s)` as a Boolean: the
optional `#`, then `%%`, then one of the six directives, at the start of
the line. -/
def matchDirectiveLine : List Char → Bool
  | '#' :: '%' :: '%' :: t => dirTail t
  | '%' :: '%' :: t => dirTail t
  | _ => false

/-!
## The script writer (`ScriptWriter`, `write_cell`)
-/

/-- `lang_replace = {'python': 'py', 'c++': 'cpp'}` with fall-through. -/
def mapLang (g : List Char) : List Char :=
  if g = str "python" then str "py"
  else if g = str "c++" then str "cpp"
  else g

/-- Matcher for `_file_link_re = @file\s+([^\s)]+)`, substituting
`\1` followed by `ext` for the whole match. -/
def matchFileLinkAt (ext : List Char) (l : List Char) : Option (List Char × Nat) :=
  if lstartsWith (str "@file") l then
    let l1 := l.drop 5
    let ws := l1.takeWhile isPySpace
    if ws = [] then none
    else
      let g := (l1.dropWhile isPySpace).takeWhile refClass
      if g = [] then none
      else some (g ++ ext, 5 + ws.length + g.length)
  else none

/-- Matcher for `_triple_backtick_re = ```(\S+)`, mapping the Jupyter
language name to the doxygen file extension. -/
def matchTripleBacktickAt (l : List Char) : Option (List Char × Nat) :=
  if lstartsWith (str "```") l then
    let g := (l.drop 3).takeWhile nonSpace
    if g = [] then none
    else some (str "```" ++ mapLang g, 3 + g.length)
  else none

/-- The per-line rewriting applied by `write_cell`: `@file x` becomes
`x.html`, then triple-backtick language names are mapped. -/
def processScriptLine (s : List Char) : List Char :=
  reSubP matchTripleBacktickAt (reSubP (matchFileLinkAt (str ".html")) s)

/-- `write_cell(cell, fh)`'s writes to `fh`: directive lines and
`%matplotlib` lines are dropped, a `#%%colabonly` line aborts the cell
(discarding the final newline and all later lines), and a terminating
newline is written when the loop completes. -/
def writeCellText : List (List Char) → List Char
  | [] => ['\n']
  | s :: rest =>
    if lstartsWith (str "#%%colabonly") s then []
    else if matchDirectiveLine s || lstartsWith (str "%matplotlib") s then
      writeCellText rest
    else processScriptLine s ++ writeCellText rest

/-- The shebang of `PythonScriptWriter.write_header` /
`BashScriptWriter.write_header`; `none` is the `KeyError` raised by the
writer-selection dict for any other kernel language. -/
def scriptHeader (language : List Char) : Option (List Char) :=
  if language = str "python" then some (str "#!/usr/bin/env python3\n\n")
  else if language = str "bash" then some (str "#!/bin/sh -e\n\n")
  else none

/-- The body written by `ScriptWriter.write`'s loop: a `\n` separator before
every cell except the first, then `write_cell`'s output. -/
def scriptBody (codeCells : List Cell) : List Char :=
  (codeCells.foldl
    (fun (acc : List Char × Bool) cell =>
      (acc.1 ++ (if acc.2 then [] else ['\n']) ++ writeCellText cell.source, false))
    ([], true)).1

/-- `ScriptWriter.write`: `none` = unsupported kernel language (`KeyError`);
`some none` = no code cells, no file written; `some (some (text, exec))` =
the script file contents and its executable bit (`os.chmod 0o755`). -/
def scriptWrite (language : List Char) (cells : List Cell) :
    Option (Option (List Char × Bool)) :=
  match scriptHeader language with
  | none => none
  | some hdr =>
    let codeCells := cells.filter (fun c => c.cell_type == str "code")
    if codeCells = [] then some none
    else some (some (hdr ++ scriptBody codeCells, true))

/-!
## The Table-of-Contents builder (`TableOfContents`)

`anchor_re = (#+)\s+(.*?)\s*\{#([^\s}]+)\}` and
`noanchor_re = (#+)\s+(.*?)\s*$`, both used with `re.match`.  The lazy
`(.*?)` is realised by scanning for the least position where the rest of
the pattern succeeds; `.` never matches a newline; `$` matches at the end
of the line or just before a terminating newline, so `(.*?)\s*$` succeeds
from a position exactly when the remaining characters are all whitespace.
-/

/-- The anchor-name class `[^\s}]`. -/
def inAnchorClass (c : Char) : Bool := !isPySpace c && c != '\x7d'

/-- The tail pattern `\s*\{#([^\s}]+)\}`: skip whitespace, read `{#`, a
non-empty anchor, and `}`; returns the anchor and the unconsumed rest. -/
def anchorTail (l : List Char) : Option (List Char × List Char) :=
  match l.dropWhile isPySpace with
  | '\x7b' :: '#' :: r =>
    let a := r.takeWhile inAnchorClass
    if a = [] then none
    else
      match r.dropWhile inAnchorClass with
      | '\x7d' :: rest => some (a, rest)
      | _ => none
  | _ => none

/-- The lazy `(.*?)\s*\{#([^\s}]+)\}`: the least split of `l` into a
newline-free title followed by a position where `anchorTail` succeeds. -/
def findTitleAnchor : List Char → Option (List Char × List Char × List Char)
  | [] => none
  | c :: cs =>
    match anchorTail (c :: cs) with
    | some (a, r) => some ([], a, r)
    | none =>
      if c = '\n' then none
      else (findTitleAnchor cs).map (fun tar => (c :: tar.1, tar.2))

/-- `TableOfContents.anchor_re.match(s)`: `(hashes, title, anchor)`. -/
def anchorMatch (s : List Char) : Option (List Char × List Char × List Char) :=
  let hs := s.takeWhile (fun c => c == '#')
  if hs = [] then none
  else
    let r1 := s.dropWhile (fun c => c == '#')
    if r1.takeWhile isPySpace = [] then none
    else (findTitleAnchor (r1.dropWhile isPySpace)).map (fun tar => (hs, tar.1, tar.2.1))

/-- The lazy `(.*?)\s*$`: the least split of `l` into a newline-free title
followed by an all-whitespace remainder. -/
def findTitleEnd : List Char → Option (List Char)
  | [] => some []
  | c :: cs =>
    if (c :: cs).all isPySpace then some []
    else if c = '\n' then none
    else (findTitleEnd cs).map (fun t => c :: t)

/-- `TableOfContents.noanchor_re.match(s)`: `(hashes, title)`. -/
def noanchorMatch (s : List Char) : Option (List Char × List Char) :=
  let hs := s.takeWhile (fun c => c == '#')
  if hs = [] then none
  else
    let r1 := s.dropWhile (fun c => c == '#')
    if r1.takeWhile isPySpace = [] then none
    else (findTitleEnd (r1.dropWhile isPySpace)).map (fun t => (hs, t))

/-- The synthetic anchor `"autotoc%dv%d" % (filenum, counter)`. -/
def autoAnchor (filenum counter : Nat) : List Char :=
  str "autotoc" ++ natChars filenum ++ str "v" ++ natChars counter

/-- One step of `TableOfContents.add_missing_anchors`: a line matching
`noanchor_re` but not `anchor_re` is rewritten to
`'%s %s {#%s}' % (hashes, title, anchor)`, bumping the counter. -/
def rewriteLine (filenum counter : Nat) (s : List Char) :
    Nat × List Char :=
  if (anchorMatch s).isSome then (counter, s)
  else
    match noanchorMatch s with
    | some ht =>
      (counter + 1,
       ht.1 ++ [' '] ++ ht.2 ++ str " \x7b#" ++ autoAnchor filenum (counter + 1) ++ str "\x7d")
    | none => (counter, s)

/-- `TableOfContents.add_missing_anchors` over the lines of one cell,
threading the `_auto_toc` counter. -/
def addMissingAnchors (filenum : Nat) (counter : Nat) :
    List (List Char) → Nat × List (List Char)
  | [] => (counter, [])
  | s :: rest =>
    let cr := rewriteLine filenum counter s
    let tail := addMissingAnchors filenum cr.1 rest
    (tail.1, cr.2 :: tail.2)

/-- One `self.entries.append` step of `TableOfContents.parse_cell`, with its
two fatal nesting checks. -/
def addEntry (entries : List (Nat × List Char × List Char))
    (e : Nat × List Char × List Char) :
    Except (List Char) (List (Nat × List Char × List Char)) :=
  match entries.getLast? with
  | some last =>
    if e.1 > last.1 + 1 then
      .error (str "A level-" ++ natChars e.1 ++ str " heading (" ++ e.2.1 ++
              str ") cannot follow a level-" ++ natChars last.1 ++ str " heading (" ++
              last.2.1 ++ str ")")
    else .ok (entries ++ [e])
  | none =>
    if e.1 ≠ 1 then
      .error (str "Top-level section (" ++ e.2.1 ++
              str ") is not a level one heading (use '# title \x7b#anchor\x7d')")
    else .ok (entries ++ [e])

/-- `get_sections` inside `parse_cell`: the `(level, title, anchor)` triples
of the lines matching `anchor_re`. -/
def getSections (source : List (List Char)) :
    List (Nat × List Char × List Char) :=
  source.filterMap (fun s => (anchorMatch s).map (fun hta => (hta.1.length, hta.2)))

/-- `TableOfContents.parse_cell`: cells whose first line mentions
`%%nbexclude` are skipped; otherwise every section is appended with the
nesting checks. -/
def parseCellToC (entries : List (Nat × List Char × List Char))
    (source : List (List Char)) :
    Except (List Char) (List (Nat × List Char × List Char)) :=
  match source with
  | [] => (getSections []).foldlM addEntry entries
  | first :: _ =>
    if containsSub (str "%%nbexclude") first then .ok entries
    else (getSections source).foldlM addEntry entries

/-!
## Member-tag registration (`RefLinks._add_member_tags`)
-/

/-- One `<member>` child of a `<compound kind="class">` tag-file entry. -/
structure Member where
  tag : List Char
  kind : List Char
  name : List Char
  anchorfile : List Char
  anchor : List Char
deriving DecidableEq

/-- Python's `clsbase.replace('::', '_1_1')` (left-to-right,
non-overlapping). -/
def colonsToUnderscore : List Char → List Char
  | ':' :: ':' :: rest => '_' :: '1' :: '_' :: '1' :: colonsToUnderscore rest
  | c :: rest => c :: colonsToUnderscore rest
  | [] => []

/-- The URL built for one member. -/
def memberUrl (urltop : List Char) (m : Member) : List Char :=
  urltop ++ m.anchorfile ++ ['#'] ++ m.anchor

/-- One loop iteration of `_add_member_tags`: function members are filed
under `clsname::meth`, and also under `clsbase::meth` when the anchorfile
ends with the base class's expected `...'::'→'_1_1'...html` filename
(`if clsbase` skips an absent or empty base). -/
def addMemberStep (clsname : List Char) (clsbase : Option (List Char))
    (urltop : List Char) (refs : List (List Char × List Char)) (m : Member) :
    List (List Char × List Char) :=
  if m.tag = str "member" ∧ m.kind = str "function" then
    let url := memberUrl urltop m
    let refs1 := refsPut refs (clsname ++ str "::" ++ m.name) url
    match clsbase with
    | some b =>
      if b ≠ [] ∧ (colonsToUnderscore b ++ str ".html").isSuffixOf m.anchorfile then
        refsPut refs1 (b ++ str "::" ++ m.name) url
      else refs1
    | none => refs1
  else refs

/-- `RefLinks._add_member_tags` over the member children of one compound. -/
def addMemberTags (clsname : List Char) (clsbase : Option (List Char))
    (urltop : List Char) (refs : List (List Char × List Char))
    (members : List Member) : List (List Char × List Char) :=
  members.foldl (addMemberStep clsname clsbase urltop) refs

/-!
## The configuration rewrite of the Doc-Build Driver
(`make_doxyfile` in `doxygen/make-docs.py`)
-/

/-- The per-line key substitution applied to `doxygen -s -g -` output. -/
def doxyLine (doxdir title tagfiles : List Char) (line : List Char) : List Char :=
  if lstartsWith (str "LAYOUT_FILE ") line then
    str "LAYOUT_FILE = " ++ doxdir ++ str "/layout.xml\n"
  else if lstartsWith (str "PROJECT_NAME ") line then
    str "PROJECT_NAME = \"" ++ title ++ str "\"\n"
  else if lstartsWith (str "INPUT ") line then
    str "INPUT = .\n"
  else if lstartsWith (str "SEARCHENGINE ") line then
    str "SEARCHENGINE = NO\n"
  else if lstartsWith (str "TOC_INCLUDE_HEADINGS ") line then
    str "TOC_INCLUDE_HEADINGS = 2\n"
  else if lstartsWith (str "IMAGE_PATH ") line then
    str "IMAGE_PATH = images\n"
  else if lstartsWith (str "EXAMPLE_PATH ") line then
    str "EXAMPLE_PATH = ..\n"
  else if lstartsWith (str "HTML_HEADER ") line then
    str "HTML_HEADER = " ++ doxdir ++ str "/header.html\n"
  else if lstartsWith (str "HTML_FOOTER ") line then
    str "HTML_FOOTER = " ++ doxdir ++ str "/footer.html\n"
  else if lstartsWith (str "GENERATE_LATEX ") line then
    str "GENERATE_LATEX = NO\n"
  else if lstartsWith (str "TAGFILES ") line then
    str "TAGFILES = " ++ tagfiles ++ str "\n"
  else line

/-- `make_doxyfile`'s whole rewrite: the dumped default configuration,
line by line. -/
def makeDoxyfile (doxdir title tagfiles : List Char) (lines : List (List Char)) :
    List (List Char) :=
  lines.map (doxyLine doxdir title tagfiles)

/-!
## Remaining emitter-level definitions
-/

/-- The colab-variant decision of `_generate_files`: the notebook and colab
cell subsets are materialised and `root-colab.ipynb` is written exactly
when they differ (`if colab_cells != nb_cells`). -/
def colabVariantWritten (cells : List Cell) : Option Bool := do
  let nb ← getOnlyNotebookCells cells
  let colab ← getOnlyColabCells cells
  pure (colab != nb)

/-- The rewrite of a double-backtick token as claim C8 describes it: only a
leading `~` is stripped, from display text and link target alike. -/
def claimBacktickLink (txt : List Char) : List Char :=
  let disp := if lstartsWith (str "~") txt then txt.tail else txt
  str "[" ++ disp ++ str "](@ref " ++ disp ++ str ")"

/-- The twelve directive first lines (bare and comment-prefixed), each with
the expected keep decision in the (html, notebook, colab) streams. -/
def markerLines : List (List Char × (Bool × Bool × Bool)) :=
  [(str "%%htmlonly\n", (true, false, false)),
   (str "#%%htmlonly\n", (true, false, false)),
   (str "%%nbonly\n", (false, true, false)),
   (str "#%%nbonly\n", (false, true, false)),
   (str "%%colabonly\n", (false, false, true)),
   (str "#%%colabonly\n", (false, false, true)),
   (str "%%htmlexclude\n", (false, true, true)),
   (str "#%%htmlexclude\n", (false, true, true)),
   (str "%%nbexclude\n", (true, false, true)),
   (str "#%%nbexclude\n", (true, false, true)),
   (str "%%colabexclude\n", (true, true, false)),
   (str "#%%colabexclude\n", (true, true, false))]

/-- Does a configuration line start with one of the keys `make_doxyfile`
rewrites? -/
def doxyRecognized (line : List Char) : Bool :=
  lstartsWith (str "LAYOUT_FILE ") line || lstartsWith (str "PROJECT_NAME ") line ||
  lstartsWith (str "INPUT ") line || lstartsWith (str "SEARCHENGINE ") line ||
  lstartsWith (str "TOC_INCLUDE_HEADINGS ") line || lstartsWith (str "IMAGE_PATH ") line ||
  lstartsWith (str "EXAMPLE_PATH ") line || lstartsWith (str "HTML_HEADER ") line ||
  lstartsWith (str "HTML_FOOTER ") line || lstartsWith (str "GENERATE_LATEX ") line ||
  lstartsWith (str "TAGFILES ") line

/-!
## Helper lemmas
-/

theorem cellKeep_cons (e o ct f : List Char) (rest : List (List Char)) :
    cellKeep e o ⟨ct, f :: rest⟩
      = (if containsSub e f then some false
         else match searchOnly f with
              | none => some true
              | some g => some (g == o)) := rfl

theorem cellKeep_first (e o ct f : List Char) (rest : List (List Char))
    (b : Option Bool)
    (h : (if containsSub e f then some false
          else match searchOnly f with
               | none => some true
               | some g => some (g == o)) = b) :
    cellKeep e o ⟨ct, f :: rest⟩ = b := h

theorem getCellSubset_singleton (e o : List Char) (c : Cell) (b : Bool)
    (h : cellKeep e o c = some b) :
    getCellSubset e o [c] = some (if b then [c] else []) := by
  simp [getCellSubset, h]

/-!
## C2: heading-level nesting checks of the Table-of-Contents builder
-/

/-- C2: adding a heading entry whose level exceeds the preceding entry's
level plus one is a fatal nesting error, as is a first entry whose level
is not 1; concretely, a level-3 heading directly after a level-1 heading
is rejected while levels 1, 2, 1 are accepted. -/
theorem C2_toc_nesting :
    (∀ (entries : List (Nat × List Char × List Char))
       (e last : Nat × List Char × List Char),
       entries.getLast? = some last → e.1 > last.1 + 1 →
       ∃ msg, addEntry entries e = .error msg) ∧
    (∀ e : Nat × List Char × List Char, e.1 ≠ 1 →
       ∃ msg, addEntry [] e = .error msg) ∧
    (parseCellToC [] [str "# A \x7b#a\x7d\n", str "### C \x7b#c\x7d\n"]).isOk = false ∧
    (parseCellToC []
      [str "# A \x7b#a\x7d\n", str "## B \x7b#b\x7d\n", str "# D \x7b#d\x7d\n"]).isOk
      = true := by
  refine ⟨?_, ?_, ?_, ?_⟩
  · intro entries e last hl hg
    simp only [addEntry, hl]
    rw [if_pos hg]
    exact ⟨_, rfl⟩
  · intro e he
    simp only [addEntry, List.getLast?_nil]
    rw [if_pos he]
    exact ⟨_, rfl⟩
  · decide
  · decide

/-- Witness for C2 at concrete inputs. -/
theorem C2_toc_nesting_witness :
    (∃ msg, addEntry [(1, str "A", str "a")] (3, str "C", str "c") = .error msg) ∧
    (∃ msg, addEntry [] (2, str "B", str "b") = .error msg) :=
  ⟨C2_toc_nesting.1 [(1, str "A", str "a")] (3, str "C", str "c")
      (1, str "A", str "a") (by decide) (by decide),
   C2_toc_nesting.2.1 (2, str "B", str "b") (by decide)⟩

/-!
## C1: conditional directives and the three output streams
-/

/-- C1 counterexample: `get_cell_subset` tests `excludestr not in
cell['source'][0]` and `re.search('%%(\S+)only', ...)`, so a directive is
recognized anywhere in the first source line.  This first line starts with
none of the twelve directive forms, yet the cell is dropped from the HTML
stream — refuting the claim that the markers are recognized only at the
start of the first line (optionally comment-prefixed). -/
theorem C1_counterexample :
    (∀ d ∈ [str "%%htmlexclude", str "#%%htmlexclude", str "%%nbexclude",
            str "#%%nbexclude", str "%%colabexclude", str "#%%colabexclude",
            str "%%htmlonly", str "#%%htmlonly", str "%%nbonly",
            str "#%%nbonly", str "%%colabonly", str "#%%colabonly"],
       lstartsWith d (str "a %%htmlexclude b\n") = false) ∧
    cellKeep (str "%%htmlexclude") (str "html")
      ⟨str "markdown", [str "a %%htmlexclude b\n"]⟩ = some false ∧
    getOnlyHtmlCells [⟨str "markdown", [str "a %%htmlexclude b\n"]⟩] = some [] := by
  decide

/-- C1 (amended): directives are recognized anywhere in the first source
line; for a first line that consists of one directive (bare or
comment-prefixed), an "only" cell is kept solely in the matching stream
and an "exclude" cell is dropped solely from the matching stream, as
`markerLines` tabulates. -/
theorem C1_amended (ct : List Char) (rest : List (List Char)) (f : List Char)
    (e : Bool × Bool × Bool) (h : (f, e) ∈ markerLines) :
    cellKeep (str "%%htmlexclude") (str "html") ⟨ct, f :: rest⟩ = some e.1 ∧
    cellKeep (str "%%nbexclude") (str "nb") ⟨ct, f :: rest⟩ = some e.2.1 ∧
    cellKeep (str "%%colabexclude") (str "colab") ⟨ct, f :: rest⟩ = some e.2.2 ∧
    getOnlyHtmlCells [⟨ct, f :: rest⟩] = some (if e.1 then [⟨ct, f :: rest⟩] else []) ∧
    getOnlyNotebookCells [⟨ct, f :: rest⟩]
      = some (if e.2.1 then [⟨ct, f :: rest⟩] else []) ∧
    getOnlyColabCells [⟨ct, f :: rest⟩]
      = some (if e.2.2 then [⟨ct, f :: rest⟩] else []) := by
  simp only [markerLines, List.mem_cons, List.not_mem_nil, or_false,
    Prod.mk.injEq] at h
  rcases h with hq | hq | hq | hq | hq | hq | hq | hq | hq | hq | hq | hq <;>
    obtain ⟨rfl, rfl⟩ := hq <;>
    exact ⟨cellKeep_first _ _ _ _ _ _ (by decide),
           cellKeep_first _ _ _ _ _ _ (by decide),
           cellKeep_first _ _ _ _ _ _ (by decide),
           getCellSubset_singleton _ _ _ _ (cellKeep_first _ _ _ _ _ _ (by decide)),
           getCellSubset_singleton _ _ _ _ (cellKeep_first _ _ _ _ _ _ (by decide)),
           getCellSubset_singleton _ _ _ _ (cellKeep_first _ _ _ _ _ _ (by decide))⟩

/-- Witness for C1 (amended) on a concrete `%%htmlonly` cell. -/
theorem C1_amended_witness :
    cellKeep (str "%%htmlexclude") (str "html")
      ⟨str "markdown", [str "%%htmlonly\n"]⟩ = some true ∧
    cellKeep (str "%%nbexclude") (str "nb")
      ⟨str "markdown", [str "%%htmlonly\n"]⟩ = some false ∧
    cellKeep (str "%%colabexclude") (str "colab")
      ⟨str "markdown", [str "%%htmlonly\n"]⟩ = some false ∧
    getOnlyHtmlCells [⟨str "markdown", [str "%%htmlonly\n"]⟩]
      = some [⟨str "markdown", [str "%%htmlonly\n"]⟩] ∧
    getOnlyNotebookCells [⟨str "markdown", [str "%%htmlonly\n"]⟩] = some [] ∧
    getOnlyColabCells [⟨str "markdown", [str "%%htmlonly\n"]⟩] = some [] :=
  C1_amended (str "markdown") [] (str "%%htmlonly\n") (true, false, false) (by decide)

/-!
## C9: the configuration rewrite of the Doc-Build Driver
-/

theorem doxyLine_key_layout (d t g rest : List Char) :
    doxyLine d t g (str "LAYOUT_FILE " ++ rest) = str "LAYOUT_FILE = " ++ d ++ str "/layout.xml\n" := by
  simp [doxyLine, lsw_true_of (str "LAYOUT_FILE ") (str "LAYOUT_FILE ") rest (by decide) (by decide)]

theorem doxyLine_key_project (d t g rest : List Char) :
    doxyLine d t g (str "PROJECT_NAME " ++ rest) = str "PROJECT_NAME = \"" ++ t ++ str "\"\n" := by
  simp [doxyLine, lsw_false_of (str "LAYOUT_FILE ") (str "PROJECT_NAME ") rest (by decide),
    lsw_true_of (str "PROJECT_NAME ") (str "PROJECT_NAME ") rest (by decide) (by decide)]

theorem doxyLine_key_input (d t g rest : List Char) :
    doxyLine d t g (str "INPUT " ++ rest) = str "INPUT = .\n" := by
  simp [doxyLine, lsw_false_of (str "LAYOUT_FILE ") (str "INPUT ") rest (by decide),
    lsw_false_of (str "PROJECT_NAME ") (str "INPUT ") rest (by decide),
    lsw_true_of (str "INPUT ") (str "INPUT ") rest (by decide) (by decide)]

theorem doxyLine_key_search (d t g rest : List Char) :
    doxyLine d t g (str "SEARCHENGINE " ++ rest) = str "SEARCHENGINE = NO\n" := by
  simp [doxyLine, lsw_false_of (str "LAYOUT_FILE ") (str "SEARCHENGINE ") rest (by decide),
    lsw_false_of (str "PROJECT_NAME ") (str "SEARCHENGINE ") rest (by decide),
    lsw_false_of (str "INPUT ") (str "SEARCHENGINE ") rest (by decide),
    lsw_true_of (str "SEARCHENGINE ") (str "SEARCHENGINE ") rest (by decide) (by decide)]

theorem doxyLine_key_tocinc (d t g rest : List Char) :
    doxyLine d t g (str "TOC_INCLUDE_HEADINGS " ++ rest) = str "TOC_INCLUDE_HEADINGS = 2\n" := by
  simp [doxyLine, lsw_false_of (str "LAYOUT_FILE ") (str "TOC_INCLUDE_HEADINGS ") rest (by decide),
    lsw_false_of (str "PROJECT_NAME ") (str "TOC_INCLUDE_HEADINGS ") rest (by decide),
    lsw_false_of (str "INPUT ") (str "TOC_INCLUDE_HEADINGS ") rest (by decide),
    lsw_false_of (str "SEARCHENGINE ") (str "TOC_INCLUDE_HEADINGS ") rest (by decide),
    lsw_true_of (str "TOC_INCLUDE_HEADINGS ") (str "TOC_INCLUDE_HEADINGS ") rest (by decide) (by decide)]

theorem doxyLine_key_image (d t g rest : List Char) :
    doxyLine d t g (str "IMAGE_PATH " ++ rest) = str "IMAGE_PATH = images\n" := by
  simp [doxyLine, lsw_false_of (str "LAYOUT_FILE ") (str "IMAGE_PATH ") rest (by decide),
    lsw_false_of (str "PROJECT_NAME ") (str "IMAGE_PATH ") rest (by decide),
    lsw_false_of (str "INPUT ") (str "IMAGE_PATH ") rest (by decide),
    lsw_false_of (str "SEARCHENGINE ") (str "IMAGE_PATH ") rest (by decide),
    lsw_false_of (str "TOC_INCLUDE_HEADINGS ") (str "IMAGE_PATH ") rest (by decide),
    lsw_true_of (str "IMAGE_PATH ") (str "IMAGE_PATH ") rest (by decide) (by decide)]

theorem doxyLine_key_example (d t g rest : List Char) :
    doxyLine d t g (str "EXAMPLE_PATH " ++ rest) = str "EXAMPLE_PATH = ..\n" := by
  simp [doxyLine, lsw_false_of (str "LAYOUT_FILE ") (str "EXAMPLE_PATH ") rest (by decide),
    lsw_false_of (str "PROJECT_NAME ") (str "EXAMPLE_PATH ") rest (by decide),
    lsw_false_of (str "INPUT ") (str "EXAMPLE_PATH ") rest (by decide),
    lsw_false_of (str "SEARCHENGINE ") (str "EXAMPLE_PATH ") rest (by decide),
    lsw_false_of (str "TOC_INCLUDE_HEADINGS ") (str "EXAMPLE_PATH ") rest (by decide),
    lsw_false_of (str "IMAGE_PATH ") (str "EXAMPLE_PATH ") rest (by decide),
    lsw_true_of (str "EXAMPLE_PATH ") (str "EXAMPLE_PATH ") rest (by decide) (by decide)]

theorem doxyLine_key_header (d t g rest : List Char) :
    doxyLine d t g (str "HTML_HEADER " ++ rest) = str "HTML_HEADER = " ++ d ++ str "/header.html\n" := by
  simp [doxyLine, lsw_false_of (str "LAYOUT_FILE ") (str "HTML_HEADER ") rest (by decide),
    lsw_false_of (str "PROJECT_NAME ") (str "HTML_HEADER ") rest (by decide),
    lsw_false_of (str "INPUT ") (str "HTML_HEADER ") rest (by decide),
    lsw_false_of (str "SEARCHENGINE ") (str "HTML_HEADER ") rest (by decide),
    lsw_false_of (str "TOC_INCLUDE_HEADINGS ") (str "HTML_HEADER ") rest (by decide),
    lsw_false_of (str "IMAGE_PATH ") (str "HTML_HEADER ") rest (by decide),
    lsw_false_of (str "EXAMPLE_PATH ") (str "HTML_HEADER ") rest (by decide),
    lsw_true_of (str "HTML_HEADER ") (str "HTML_HEADER ") rest (by decide) (by decide)]

theorem doxyLine_key_footer (d t g rest : List Char) :
    doxyLine d t g (str "HTML_FOOTER " ++ rest) = str "HTML_FOOTER = " ++ d ++ str "/footer.html\n" := by
  simp [doxyLine, lsw_false_of (str "LAYOUT_FILE ") (str "HTML_FOOTER ") rest (by decide),
    lsw_false_of (str "PROJECT_NAME ") (str "HTML_FOOTER ") rest (by decide),
    lsw_false_of (str "INPUT ") (str "HTML_FOOTER ") rest (by decide),
    lsw_false_of (str "SEARCHENGINE ") (str "HTML_FOOTER ") rest (by decide),
    lsw_false_of (str "TOC_INCLUDE_HEADINGS ") (str "HTML_FOOTER ") rest (by decide),
    lsw_false_of (str "IMAGE_PATH ") (str "HTML_FOOTER ") rest (by decide),
    lsw_false_of (str "EXAMPLE_PATH ") (str "HTML_FOOTER ") rest (by decide),
    lsw_false_of (str "HTML_HEADER ") (str "HTML_FOOTER ") rest (by decide),
    lsw_true_of (str "HTML_FOOTER ") (str "HTML_FOOTER ") rest (by decide) (by decide)]

theorem doxyLine_key_latex (d t g rest : List Char) :
    doxyLine d t g (str "GENERATE_LATEX " ++ rest) = str "GENERATE_LATEX = NO\n" := by
  simp [doxyLine, lsw_false_of (str "LAYOUT_FILE ") (str "GENERATE_LATEX ") rest (by decide),
    lsw_false_of (str "PROJECT_NAME ") (str "GENERATE_LATEX ") rest (by decide),
    lsw_false_of (str "INPUT ") (str "GENERATE_LATEX ") rest (by decide),
    lsw_false_of (str "SEARCHENGINE ") (str "GENERATE_LATEX ") rest (by decide),
    lsw_false_of (str "TOC_INCLUDE_HEADINGS ") (str "GENERATE_LATEX ") rest (by decide),
    lsw_false_of (str "IMAGE_PATH ") (str "GENERATE_LATEX ") rest (by decide),
    lsw_false_of (str "EXAMPLE_PATH ") (str "GENERATE_LATEX ") rest (by decide),
    lsw_false_of (str "HTML_HEADER ") (str "GENERATE_LATEX ") rest (by decide),
    lsw_false_of (str "HTML_FOOTER ") (str "GENERATE_LATEX ") rest (by decide),
    lsw_true_of (str "GENERATE_LATEX ") (str "GENERATE_LATEX ") rest (by decide) (by decide)]

theorem doxyLine_key_tags (d t g rest : List Char) :
    doxyLine d t g (str "TAGFILES " ++ rest) = str "TAGFILES = " ++ g ++ str "\n" := by
  simp [doxyLine, lsw_false_of (str "LAYOUT_FILE ") (str "TAGFILES ") rest (by decide),
    lsw_false_of (str "PROJECT_NAME ") (str "TAGFILES ") rest (by decide),
    lsw_false_of (str "INPUT ") (str "TAGFILES ") rest (by decide),
    lsw_false_of (str "SEARCHENGINE ") (str "TAGFILES ") rest (by decide),
    lsw_false_of (str "TOC_INCLUDE_HEADINGS ") (str "TAGFILES ") rest (by decide),
    lsw_false_of (str "IMAGE_PATH ") (str "TAGFILES ") rest (by decide),
    lsw_false_of (str "EXAMPLE_PATH ") (str "TAGFILES ") rest (by decide),
    lsw_false_of (str "HTML_HEADER ") (str "TAGFILES ") rest (by decide),
    lsw_false_of (str "HTML_FOOTER ") (str "TAGFILES ") rest (by decide),
    lsw_false_of (str "GENERATE_LATEX ") (str "TAGFILES ") rest (by decide),
    lsw_true_of (str "TAGFILES ") (str "TAGFILES ") rest (by decide) (by decide)]

theorem doxyLine_fix_layout (d t g : List Char) :
    doxyLine d t g (str "LAYOUT_FILE = " ++ d ++ str "/layout.xml\n") = str "LAYOUT_FILE = " ++ d ++ str "/layout.xml\n" := by
  rw [List.append_assoc]
  simp [doxyLine, List.append_assoc, lsw_true_of (str "LAYOUT_FILE ") (str "LAYOUT_FILE = ") (d ++ str "/layout.xml\n") (by decide) (by decide)]

theorem doxyLine_fix_project (d t g : List Char) :
    doxyLine d t g (str "PROJECT_NAME = \"" ++ t ++ str "\"\n") = str "PROJECT_NAME = \"" ++ t ++ str "\"\n" := by
  rw [List.append_assoc]
  simp [doxyLine, List.append_assoc, lsw_false_of (str "LAYOUT_FILE ") (str "PROJECT_NAME = \"") (t ++ str "\"\n") (by decide),
    lsw_true_of (str "PROJECT_NAME ") (str "PROJECT_NAME = \"") (t ++ str "\"\n") (by decide) (by decide)]

theorem doxyLine_fix_input (d t g : List Char) :
    doxyLine d t g (str "INPUT = .\n") = str "INPUT = .\n" := by
  simp [doxyLine, (by decide : lstartsWith (str "LAYOUT_FILE ") (str "INPUT = .\n") = false),
    (by decide : lstartsWith (str "PROJECT_NAME ") (str "INPUT = .\n") = false),
    (by decide : lstartsWith (str "INPUT ") (str "INPUT = .\n") = true)]

theorem doxyLine_fix_search (d t g : List Char) :
    doxyLine d t g (str "SEARCHENGINE = NO\n") = str "SEARCHENGINE = NO\n" := by
  simp [doxyLine, (by decide : lstartsWith (str "LAYOUT_FILE ") (str "SEARCHENGINE = NO\n") = false),
    (by decide : lstartsWith (str "PROJECT_NAME ") (str "SEARCHENGINE = NO\n") = false),
    (by decide : lstartsWith (str "INPUT ") (str "SEARCHENGINE = NO\n") = false),
    (by decide : lstartsWith (str "SEARCHENGINE ") (str "SEARCHENGINE = NO\n") = true)]

theorem doxyLine_fix_tocinc (d t g : List Char) :
    doxyLine d t g (str "TOC_INCLUDE_HEADINGS = 2\n") = str "TOC_INCLUDE_HEADINGS = 2\n" := by
  simp [doxyLine, (by decide : lstartsWith (str "LAYOUT_FILE ") (str "TOC_INCLUDE_HEADINGS = 2\n") = false),
    (by decide : lstartsWith (str "PROJECT_NAME ") (str "TOC_INCLUDE_HEADINGS = 2\n") = false),
    (by decide : lstartsWith (str "INPUT ") (str "TOC_INCLUDE_HEADINGS = 2\n") = false),
    (by decide : lstartsWith (str "SEARCHENGINE ") (str "TOC_INCLUDE_HEADINGS = 2\n") = false),
    (by decide : lstartsWith (str "TOC_INCLUDE_HEADINGS ") (str "TOC_INCLUDE_HEADINGS = 2\n") = true)]

theorem doxyLine_fix_image (d t g : List Char) :
    doxyLine d t g (str "IMAGE_PATH = images\n") = str "IMAGE_PATH = images\n" := by
  simp [doxyLine, (by decide : lstartsWith (str "LAYOUT_FILE ") (str "IMAGE_PATH = images\n") = false),
    (by decide : lstartsWith (str "PROJECT_NAME ") (str "IMAGE_PATH = images\n") = false),
    (by decide : lstartsWith (str "INPUT ") (str "IMAGE_PATH = images\n") = false),
    (by decide : lstartsWith (str "SEARCHENGINE ") (str "IMAGE_PATH = images\n") = false),
    (by decide : lstartsWith (str "TOC_INCLUDE_HEADINGS ") (str "IMAGE_PATH = images\n") = false),
    (by decide : lstartsWith (str "IMAGE_PATH ") (str "IMAGE_PATH = images\n") = true)]

theorem doxyLine_fix_example (d t g : List Char) :
    doxyLine d t g (str "EXAMPLE_PATH = ..\n") = str "EXAMPLE_PATH = ..\n" := by
  simp [doxyLine, (by decide : lstartsWith (str "LAYOUT_FILE ") (str "EXAMPLE_PATH = ..\n") = false),
    (by decide : lstartsWith (str "PROJECT_NAME ") (str "EXAMPLE_PATH = ..\n") = false),
    (by decide : lstartsWith (str "INPUT ") (str "EXAMPLE_PATH = ..\n") = false),
    (by decide : lstartsWith (str "SEARCHENGINE ") (str "EXAMPLE_PATH = ..\n") = false),
    (by decide : lstartsWith (str "TOC_INCLUDE_HEADINGS ") (str "EXAMPLE_PATH = ..\n") = false),
    (by decide : lstartsWith (str "IMAGE_PATH ") (str "EXAMPLE_PATH = ..\n") = false),
    (by decide : lstartsWith (str "EXAMPLE_PATH ") (str "EXAMPLE_PATH = ..\n") = true)]

theorem doxyLine_fix_header (d t g : List Char) :
    doxyLine d t g (str "HTML_HEADER = " ++ d ++ str "/header.html\n") = str "HTML_HEADER = " ++ d ++ str "/header.html\n" := by
  rw [List.append_assoc]
  simp [doxyLine, List.append_assoc, lsw_false_of (str "LAYOUT_FILE ") (str "HTML_HEADER = ") (d ++ str "/header.html\n") (by decide),
    lsw_false_of (str "PROJECT_NAME ") (str "HTML_HEADER = ") (d ++ str "/header.html\n") (by decide),
    lsw_false_of (str "INPUT ") (str "HTML_HEADER = ") (d ++ str "/header.html\n") (by decide),
    lsw_false_of (str "SEARCHENGINE ") (str "HTML_HEADER = ") (d ++ str "/header.html\n") (by decide),
    lsw_false_of (str "TOC_INCLUDE_HEADINGS ") (str "HTML_HEADER = ") (d ++ str "/header.html\n") (by decide),
    lsw_false_of (str "IMAGE_PATH ") (str "HTML_HEADER = ") (d ++ str "/header.html\n") (by decide),
    lsw_false_of (str "EXAMPLE_PATH ") (str "HTML_HEADER = ") (d ++ str "/header.html\n") (by decide),
    lsw_true_of (str "HTML_HEADER ") (str "HTML_HEADER = ") (d ++ str "/header.html\n") (by decide) (by decide)]

theorem doxyLine_fix_footer (d t g : List Char) :
    doxyLine d t g (str "HTML_FOOTER = " ++ d ++ str "/footer.html\n") = str "HTML_FOOTER = " ++ d ++ str "/footer.html\n" := by
  rw [List.append_assoc]
  simp [doxyLine, List.append_assoc, lsw_false_of (str "LAYOUT_FILE ") (str "HTML_FOOTER = ") (d ++ str "/footer.html\n") (by decide),
    lsw_false_of (str "PROJECT_NAME ") (str "HTML_FOOTER = ") (d ++ str "/footer.html\n") (by decide),
    lsw_false_of (str "INPUT ") (str "HTML_FOOTER = ") (d ++ str "/footer.html\n") (by decide),
    lsw_false_of (str "SEARCHENGINE ") (str "HTML_FOOTER = ") (d ++ str "/footer.html\n") (by decide),
    lsw_false_of (str "TOC_INCLUDE_HEADINGS ") (str "HTML_FOOTER = ") (d ++ str "/footer.html\n") (by decide),
    lsw_false_of (str "IMAGE_PATH ") (str "HTML_FOOTER = ") (d ++ str "/footer.html\n") (by decide),
    lsw_false_of (str "EXAMPLE_PATH ") (str "HTML_FOOTER = ") (d ++ str "/footer.html\n") (by decide),
    lsw_false_of (str "HTML_HEADER ") (str "HTML_FOOTER = ") (d ++ str "/footer.html\n") (by decide),
    lsw_true_of (str "HTML_FOOTER ") (str "HTML_FOOTER = ") (d ++ str "/footer.html\n") (by decide) (by decide)]

theorem doxyLine_fix_latex (d t g : List Char) :
    doxyLine d t g (str "GENERATE_LATEX = NO\n") = str "GENERATE_LATEX = NO\n" := by
  simp [doxyLine, (by decide : lstartsWith (str "LAYOUT_FILE ") (str "GENERATE_LATEX = NO\n") = false),
    (by decide : lstartsWith (str "PROJECT_NAME ") (str "GENERATE_LATEX = NO\n") = false),
    (by decide : lstartsWith (str "INPUT ") (str "GENERATE_LATEX = NO\n") = false),
    (by decide : lstartsWith (str "SEARCHENGINE ") (str "GENERATE_LATEX = NO\n") = false),
    (by decide : lstartsWith (str "TOC_INCLUDE_HEADINGS ") (str "GENERATE_LATEX = NO\n") = false),
    (by decide : lstartsWith (str "IMAGE_PATH ") (str "GENERATE_LATEX = NO\n") = false),
    (by decide : lstartsWith (str "EXAMPLE_PATH ") (str "GENERATE_LATEX = NO\n") = false),
    (by decide : lstartsWith (str "HTML_HEADER ") (str "GENERATE_LATEX = NO\n") = false),
    (by decide : lstartsWith (str "HTML_FOOTER ") (str "GENERATE_LATEX = NO\n") = false),
    (by decide : lstartsWith (str "GENERATE_LATEX ") (str "GENERATE_LATEX = NO\n") = true)]

theorem doxyLine_fix_tags (d t g : List Char) :
    doxyLine d t g (str "TAGFILES = " ++ g ++ str "\n") = str "TAGFILES = " ++ g ++ str "\n" := by
  rw [List.append_assoc]
  simp [doxyLine, List.append_assoc, lsw_false_of (str "LAYOUT_FILE ") (str "TAGFILES = ") (g ++ str "\n") (by decide),
    lsw_false_of (str "PROJECT_NAME ") (str "TAGFILES = ") (g ++ str "\n") (by decide),
    lsw_false_of (str "INPUT ") (str "TAGFILES = ") (g ++ str "\n") (by decide),
    lsw_false_of (str "SEARCHENGINE ") (str "TAGFILES = ") (g ++ str "\n") (by decide),
    lsw_false_of (str "TOC_INCLUDE_HEADINGS ") (str "TAGFILES = ") (g ++ str "\n") (by decide),
    lsw_false_of (str "IMAGE_PATH ") (str "TAGFILES = ") (g ++ str "\n") (by decide),
    lsw_false_of (str "EXAMPLE_PATH ") (str "TAGFILES = ") (g ++ str "\n") (by decide),
    lsw_false_of (str "HTML_HEADER ") (str "TAGFILES = ") (g ++ str "\n") (by decide),
    lsw_false_of (str "HTML_FOOTER ") (str "TAGFILES = ") (g ++ str "\n") (by decide),
    lsw_false_of (str "GENERATE_LATEX ") (str "TAGFILES = ") (g ++ str "\n") (by decide),
    lsw_true_of (str "TAGFILES ") (str "TAGFILES = ") (g ++ str "\n") (by decide) (by decide)]

theorem doxyLine_idem (d t g line : List Char) :
    doxyLine d t g (doxyLine d t g line) = doxyLine d t g line := by
  by_cases h1 : lstartsWith (str "LAYOUT_FILE ") line = true
  · obtain ⟨r, rfl⟩ := (lstartsWith_iff_exists _ _).mp h1
    rw [doxyLine_key_layout]
    exact doxyLine_fix_layout d t g
  by_cases h2 : lstartsWith (str "PROJECT_NAME ") line = true
  · obtain ⟨r, rfl⟩ := (lstartsWith_iff_exists _ _).mp h2
    rw [doxyLine_key_project]
    exact doxyLine_fix_project d t g
  by_cases h3 : lstartsWith (str "INPUT ") line = true
  · obtain ⟨r, rfl⟩ := (lstartsWith_iff_exists _ _).mp h3
    rw [doxyLine_key_input]
    exact doxyLine_fix_input d t g
  by_cases h4 : lstartsWith (str "SEARCHENGINE ") line = true
  · obtain ⟨r, rfl⟩ := (lstartsWith_iff_exists _ _).mp h4
    rw [doxyLine_key_search]
    exact doxyLine_fix_search d t g
  by_cases h5 : lstartsWith (str "TOC_INCLUDE_HEADINGS ") line = true
  · obtain ⟨r, rfl⟩ := (lstartsWith_iff_exists _ _).mp h5
    rw [doxyLine_key_tocinc]
    exact doxyLine_fix_tocinc d t g
  by_cases h6 : lstartsWith (str "IMAGE_PATH ") line = true
  · obtain ⟨r, rfl⟩ := (lstartsWith_iff_exists _ _).mp h6
    rw [doxyLine_key_image]
    exact doxyLine_fix_image d t g
  by_cases h7 : lstartsWith (str "EXAMPLE_PATH ") line = true
  · obtain ⟨r, rfl⟩ := (lstartsWith_iff_exists _ _).mp h7
    rw [doxyLine_key_example]
    exact doxyLine_fix_example d t g
  by_cases h8 : lstartsWith (str "HTML_HEADER ") line = true
  · obtain ⟨r, rfl⟩ := (lstartsWith_iff_exists _ _).mp h8
    rw [doxyLine_key_header]
    exact doxyLine_fix_header d t g
  by_cases h9 : lstartsWith (str "HTML_FOOTER ") line = true
  · obtain ⟨r, rfl⟩ := (lstartsWith_iff_exists _ _).mp h9
    rw [doxyLine_key_footer]
    exact doxyLine_fix_footer d t g
  by_cases h10 : lstartsWith (str "GENERATE_LATEX ") line = true
  · obtain ⟨r, rfl⟩ := (lstartsWith_iff_exists _ _).mp h10
    rw [doxyLine_key_latex]
    exact doxyLine_fix_latex d t g
  by_cases h11 : lstartsWith (str "TAGFILES ") line = true
  · obtain ⟨r, rfl⟩ := (lstartsWith_iff_exists _ _).mp h11
    rw [doxyLine_key_tags]
    exact doxyLine_fix_tags d t g
  have e : doxyLine d t g line = line := by simp [doxyLine, h1, h2, h3, h4, h5, h6, h7, h8, h9, h10, h11]
  rw [e]
  exact e

theorem doxyLine_pass (d t g line : List Char)
    (h : doxyRecognized line = false) : doxyLine d t g line = line := by
  simp only [doxyRecognized, Bool.or_eq_false_iff] at h
  obtain ⟨⟨⟨⟨⟨⟨⟨⟨⟨⟨h1, h2⟩, h3⟩, h4⟩, h5⟩, h6⟩, h7⟩, h8⟩, h9⟩, h10⟩, h11⟩ := h
  simp [doxyLine, h1, h2, h3, h4, h5, h6, h7, h8, h9, h10, h11]

/-- C9: the Doc-Build Driver's configuration rewrite is idempotent — mapping
the per-line key rewrite twice over any dumped default configuration gives
byte-identical output — and any line starting with none of the recognized
keys passes through unchanged. -/
theorem C9_doxyfile_idempotent (d t g : List Char) (lines : List (List Char)) :
    makeDoxyfile d t g (makeDoxyfile d t g lines) = makeDoxyfile d t g lines ∧
    ∀ line : List Char, doxyRecognized line = false → doxyLine d t g line = line := by
  constructor
  · simp only [makeDoxyfile, List.map_map]
    exact List.map_congr_left (fun a _ => doxyLine_idem d t g a)
  · exact fun line h => doxyLine_pass d t g line h

/-- Witness for C9 on a concrete dumped configuration. -/
theorem C9_doxyfile_idempotent_witness :
    makeDoxyfile (str "/D") (str "T") (str "a=b")
        (makeDoxyfile (str "/D") (str "T") (str "a=b")
          [str "LAYOUT_FILE            =\n", str "FOO = 1\n"])
      = makeDoxyfile (str "/D") (str "T") (str "a=b")
          [str "LAYOUT_FILE            =\n", str "FOO = 1\n"] ∧
    doxyLine (str "/D") (str "T") (str "a=b") (str "FOO = 1\n") = str "FOO = 1\n" :=
  ⟨(C9_doxyfile_idempotent (str "/D") (str "T") (str "a=b")
      [str "LAYOUT_FILE            =\n", str "FOO = 1\n"]).1,
   (C9_doxyfile_idempotent (str "/D") (str "T") (str "a=b") []).2
      (str "FOO = 1\n") (by decide)⟩

/-!
## Unfolding lemmas for the substitution scanners
-/

theorem reSubPGo_fuel (m : List Char → Option (List Char × Nat)) :
    ∀ (f1 : Nat) (f2 : Nat) (l : List Char), l.length ≤ f1 → l.length ≤ f2 →
      reSubPGo m f1 l = reSubPGo m f2 l := by
  intro f1
  induction f1 with
  | zero =>
    intro f2 l hl _
    have : l = [] := List.eq_nil_of_length_eq_zero (Nat.le_zero.mp hl)
    subst this
    cases f2 <;> rfl
  | succ f1 ih =>
    intro f2 l hl1 hl2
    cases l with
    | nil => cases f2 <;> rfl
    | cons c cs =>
      simp only [List.length_cons] at hl1 hl2
      cases f2 with
      | zero => omega
      | succ f2 =>
        simp only [reSubPGo]
        cases hm : m (c :: cs) with
        | none => rw [ih f2 cs (by omega) (by omega)]
        | some p =>
          rcases p with ⟨r, n⟩
          cases n with
          | zero => rw [ih f2 cs (by omega) (by omega)]
          | succ n =>
            show r ++ reSubPGo m f1 (cs.drop n) = r ++ reSubPGo m f2 (cs.drop n)
            rw [ih f2 (cs.drop n) (by simp [List.length_drop]; omega)
                (by simp [List.length_drop]; omega)]

theorem reSubP_nil (m : List Char → Option (List Char × Nat)) :
    reSubP m [] = [] := rfl

theorem reSubP_match (m : List Char → Option (List Char × Nat)) (c : Char)
    (cs r : List Char) (n : Nat) (h : m (c :: cs) = some (r, n + 1)) :
    reSubP m (c :: cs) = r ++ reSubP m (cs.drop n) := by
  simp only [reSubP, List.length_cons, reSubPGo, h]
  rw [reSubPGo_fuel m cs.length (cs.drop n).length (cs.drop n)
      (by simp [List.length_drop]) (Nat.le_refl _)]

theorem reSubP_skip (m : List Char → Option (List Char × Nat)) (c : Char)
    (cs : List Char) (h : m (c :: cs) = none) :
    reSubP m (c :: cs) = c :: reSubP m cs := by
  simp only [reSubP, List.length_cons, reSubPGo, h]

theorem reSubEGo_fuel (m : List Char → Option (Except (List Char) (List Char) × Nat)) :
    ∀ (f1 : Nat) (f2 : Nat) (l : List Char), l.length ≤ f1 → l.length ≤ f2 →
      reSubEGo m f1 l = reSubEGo m f2 l := by
  intro f1
  induction f1 with
  | zero =>
    intro f2 l hl _
    have : l = [] := List.eq_nil_of_length_eq_zero (Nat.le_zero.mp hl)
    subst this
    cases f2 <;> rfl
  | succ f1 ih =>
    intro f2 l hl1 hl2
    cases l with
    | nil => cases f2 <;> rfl
    | cons c cs =>
      simp only [List.length_cons] at hl1 hl2
      cases f2 with
      | zero => omega
      | succ f2 =>
        simp only [reSubEGo]
        cases hm : m (c :: cs) with
        | none => rw [ih f2 cs (by omega) (by omega)]
        | some p =>
          rcases p with ⟨r, n⟩
          cases n with
          | zero => rw [ih f2 cs (by omega) (by omega)]
          | succ n =>
            show (do
                let rv ← r
                let tv ← reSubEGo m f1 (cs.drop n)
                pure (rv ++ tv))
              = (do
                let rv ← r
                let tv ← reSubEGo m f2 (cs.drop n)
                pure (rv ++ tv))
            rw [ih f2 (cs.drop n) (by simp [List.length_drop]; omega)
                (by simp [List.length_drop]; omega)]

theorem reSubE_nil (m : List Char → Option (Except (List Char) (List Char) × Nat)) :
    reSubE m [] = .ok [] := rfl

theorem reSubE_match (m : List Char → Option (Except (List Char) (List Char) × Nat))
    (c : Char) (cs : List Char) (r : Except (List Char) (List Char)) (n : Nat)
    (h : m (c :: cs) = some (r, n + 1)) :
    reSubE m (c :: cs) = (do
      let rv ← r
      let tv ← reSubE m (cs.drop n)
      Except.ok (rv ++ tv)) := by
  simp only [reSubE, List.length_cons, reSubEGo, h]
  rw [reSubEGo_fuel m cs.length (cs.drop n).length (cs.drop n)
      (by simp [List.length_drop]) (Nat.le_refl _)]

theorem reSubE_skip (m : List Char → Option (Except (List Char) (List Char) × Nat))
    (c : Char) (cs : List Char) (h : m (c :: cs) = none) :
    reSubE m (c :: cs) = (do
      let tv ← reSubE m cs
      Except.ok (c :: tv)) := by
  simp only [reSubE, List.length_cons, reSubEGo, h]

/-!
## C5: the script pass
-/

theorem scriptBody_foldl (cs : List Cell) (a : List Char) :
    (List.foldl
      (fun (acc : List Char × Bool) cell =>
        (acc.1 ++ (if acc.2 then [] else ['\n']) ++ writeCellText cell.source, false))
      (a, false) cs).1
      = a ++ (cs.map (fun c2 => '\n' :: writeCellText c2.source)).flatten := by
  induction cs generalizing a with
  | nil => simp
  | cons x xs ih =>
    simp only [List.foldl_cons, if_neg, Bool.false_eq_true, not_false_eq_true,
      List.map_cons, List.flatten_cons]
    rw [ih]
    simp [List.append_assoc]

theorem scriptBody_cons (c : Cell) (cs : List Cell) :
    scriptBody (c :: cs)
      = writeCellText c.source
        ++ (cs.map (fun c2 => '\n' :: writeCellText c2.source)).flatten := by
  have h := scriptBody_foldl cs (writeCellText c.source)
  simp only [scriptBody, List.foldl_cons]
  simpa using h

/-- C5 counterexample: a code cell whose first line is the bare
`%%colabonly` directive is colab-only for the cell-subset filters (it is
dropped from the notebook stream and kept in the colab stream), yet
`write_cell` only skips cells on `'#%%colabonly'`, so the cell's remaining
source lines do appear in the plain-script output. -/
theorem C5_counterexample :
    searchOnly (str "%%colabonly\n") = some (str "colab") ∧
    getOnlyNotebookCells [⟨str "code", [str "%%colabonly\n", str "y = 2\n"]⟩]
      = some [] ∧
    getOnlyColabCells [⟨str "code", [str "%%colabonly\n", str "y = 2\n"]⟩]
      = some [⟨str "code", [str "%%colabonly\n", str "y = 2\n"]⟩] ∧
    scriptWrite (str "python") [⟨str "code", [str "%%colabonly\n", str "y = 2\n"]⟩]
      = some (some (str "#!/usr/bin/env python3\n\ny = 2\n\n", true)) ∧
    containsSub (str "y = 2") (str "#!/usr/bin/env python3\n\ny = 2\n\n") = true := by
  decide

/-- C5 (amended): the script is built from exactly the code cells (markdown
cells are never consulted); it is not written at all when there are no code
cells; otherwise it starts with the kernel-language shebang, consecutive
cells are separated by a `\n` (which, after each cell's own terminating
newline, is a blank line), and the file is marked executable; a cell whose
first line starts with the comment-prefixed `#%%colabonly` contributes
nothing to the script (a bare `%%colabonly` first line only drops that
line, see `C5_counterexample`). -/
theorem C5_amended :
    (∀ lang cells, scriptWrite lang cells
        = scriptWrite lang (cells.filter (fun c => c.cell_type == str "code"))) ∧
    (∀ lang hdr cells, scriptHeader lang = some hdr →
       (scriptWrite lang cells = some none ↔
          cells.filter (fun c => c.cell_type == str "code") = []) ∧
       (∀ cc ccs, cells.filter (fun c => c.cell_type == str "code") = cc :: ccs →
          scriptWrite lang cells
            = some (some (hdr ++ (writeCellText cc.source
                ++ (ccs.map (fun c2 => '\n' :: writeCellText c2.source)).flatten),
                true)))) ∧
    (scriptHeader (str "python") = some (str "#!/usr/bin/env python3\n\n") ∧
     scriptHeader (str "bash") = some (str "#!/bin/sh -e\n\n")) ∧
    (∀ rest, writeCellText (str "#%%colabonly\n" :: rest) = []) := by
  refine ⟨?_, ?_, ⟨by decide, by decide⟩, ?_⟩
  · intro lang cells
    cases h : scriptHeader lang with
    | none => simp [scriptWrite, h]
    | some hdr =>
      simp only [scriptWrite, h, List.filter_filter, Bool.and_self]
  · intro lang hdr cells h
    constructor
    · simp only [scriptWrite, h]
      by_cases hf : cells.filter (fun c => c.cell_type == str "code") = []
      · simp [hf]
      · simp [hf]
    · intro cc ccs hf
      simp only [scriptWrite, h, hf]
      rw [if_neg (by simp)]
      rw [scriptBody_cons]
  · intro rest
    simp [writeCellText,
      (by decide : lstartsWith (str "#%%colabonly") (str "#%%colabonly\n") = true)]

/-- Witness for C5 (amended) on a concrete two-cell template. -/
theorem C5_amended_witness :
    scriptWrite (str "python")
        [⟨str "markdown", [str "# t\n"]⟩, ⟨str "code", [str "a\n"]⟩]
      = scriptWrite (str "python")
          (([⟨str "markdown", [str "# t\n"]⟩, ⟨str "code", [str "a\n"]⟩] : List Cell).filter
            (fun c => c.cell_type == str "code")) ∧
    (scriptWrite (str "python")
        [⟨str "markdown", [str "# t\n"]⟩, ⟨str "code", [str "a\n"]⟩] = some none ↔
      (([⟨str "markdown", [str "# t\n"]⟩, ⟨str "code", [str "a\n"]⟩] : List Cell).filter
          (fun c => c.cell_type == str "code")) = []) ∧
    scriptWrite (str "python")
        [⟨str "markdown", [str "# t\n"]⟩, ⟨str "code", [str "a\n"]⟩]
      = some (some (str "#!/usr/bin/env python3\n\n"
          ++ (writeCellText [str "a\n"]
              ++ (([] : List Cell).map
                    (fun c2 => '\n' :: writeCellText c2.source)).flatten), true)) ∧
    writeCellText [str "#%%colabonly\n", str "q\n"] = [] :=
  ⟨C5_amended.1 (str "python")
      [⟨str "markdown", [str "# t\n"]⟩, ⟨str "code", [str "a\n"]⟩],
   (C5_amended.2.1 (str "python") (str "#!/usr/bin/env python3\n\n")
      [⟨str "markdown", [str "# t\n"]⟩, ⟨str "code", [str "a\n"]⟩] (by decide)).1,
   (C5_amended.2.1 (str "python") (str "#!/usr/bin/env python3\n\n")
      [⟨str "markdown", [str "# t\n"]⟩, ⟨str "code", [str "a\n"]⟩] (by decide)).2
      ⟨str "code", [str "a\n"]⟩ [] (by decide),
   C5_amended.2.2.2 [str "q\n"]⟩

/-!
## C4: the colab notebook variant
-/

/-- C4 counterexample: a code cell whose first line is the bare
`%%colabonly` marker is present in the colab-filtered cell set (and absent
from the notebook set), but its remaining source appears in the
plain-script output, refuting the claim's "absent from the plain-script
output" for this colab-only marker form. -/
theorem C4_counterexample :
    getOnlyColabCells [⟨str "code", [str "%%colabonly\n", str "x = 1\n"]⟩]
      = some [⟨str "code", [str "%%colabonly\n", str "x = 1\n"]⟩] ∧
    getOnlyNotebookCells [⟨str "code", [str "%%colabonly\n", str "x = 1\n"]⟩]
      = some [] ∧
    scriptWrite (str "python") [⟨str "code", [str "%%colabonly\n", str "x = 1\n"]⟩]
      = some (some (str "#!/usr/bin/env python3\n\nx = 1\n\n", true)) ∧
    containsSub (str "x = 1") (str "#!/usr/bin/env python3\n\nx = 1\n\n") = true := by
  decide

/-- C4 (amended): `root-colab.ipynb` is written iff the colab-filtered cell
sequence differs from the notebook-filtered one; a cell whose first line is
the comment-prefixed `#%%colabonly` is kept by the colab filter, dropped by
the notebook filter, and contributes nothing to the plain-script output
(for the bare `%%colabonly` form only the marker line itself is dropped
from the script, see `C4_counterexample`). -/
theorem C4_amended :
    (∀ cells nb colab, getOnlyNotebookCells cells = some nb →
        getOnlyColabCells cells = some colab →
        (colabVariantWritten cells = some true ↔ colab ≠ nb)) ∧
    (∀ ct rest,
        cellKeep (str "%%colabexclude") (str "colab")
          ⟨ct, str "#%%colabonly\n" :: rest⟩ = some true ∧
        cellKeep (str "%%nbexclude") (str "nb")
          ⟨ct, str "#%%colabonly\n" :: rest⟩ = some false ∧
        writeCellText (str "#%%colabonly\n" :: rest) = []) := by
  constructor
  · intro cells nb colab hnb hcolab
    simp [colabVariantWritten, hnb, hcolab]
  · intro ct rest
    refine ⟨cellKeep_first _ _ _ _ _ _ (by decide),
            cellKeep_first _ _ _ _ _ _ (by decide), ?_⟩
    simp [writeCellText,
      (by decide : lstartsWith (str "#%%colabonly") (str "#%%colabonly\n") = true)]

/-- Witness for C4 (amended) on a concrete one-cell template. -/
theorem C4_amended_witness :
    (colabVariantWritten [⟨str "code", [str "#%%colabonly\n"]⟩] = some true ↔
      ([⟨str "code", [str "#%%colabonly\n"]⟩] : List Cell) ≠ []) ∧
    writeCellText [str "#%%colabonly\n"] = [] :=
  ⟨C4_amended.1 [⟨str "code", [str "#%%colabonly\n"]⟩] []
      [⟨str "code", [str "#%%colabonly\n"]⟩] (by decide) (by decide),
   (C4_amended.2 (str "code") []).2.2⟩

/-!
## C8: double-backtick tokens
-/

/-- C8 counterexample: for ``~A.b`` the code displays only the last
component `b` (module qualification is stripped from the display text),
not `A.b` as the claim's "only that leading sigil is stripped from the
display text" requires. -/
theorem C8_counterexample :
    replaceBacktickLink (str "~A.b") = str "[b](@ref A.b)" ∧
    claimBacktickLink (str "~A.b") = str "[A.b](@ref A.b)" ∧
    replaceBacktickLink (str "~A.b") ≠ claimBacktickLink (str "~A.b") := by
  decide

/-- C8 (amended): a double-backtick token becomes a link whose target is
the token without its leading `~`; the display text is the token's last
`.`-component's last `::`-component computed on the token with the sigil
still attached — so qualification is dropped from the display, and for an
unqualified `~foo` the sigil survives in the display. -/
theorem C8_amended (txt : List Char) (h1 : txt ≠ [])
    (h2 : ∀ c ∈ txt, backtickClass c = true) :
    subBacktick (str "``" ++ txt ++ str "``") = replaceBacktickLink txt ∧
    (lstartsWith (str "~") txt = true →
      replaceBacktickLink txt
        = str "[" ++ lastSplitColons (lastSplitDot txt) ++ str "](@ref "
            ++ txt.tail ++ str ")") ∧
    (lstartsWith (str "~") txt = false →
      replaceBacktickLink txt = str "[" ++ txt ++ str "](@ref " ++ txt ++ str ")") := by
  have hg : (txt ++ str "``").takeWhile backtickClass = txt := by
    rw [takeWhile_append_of_all _ h2]
    rw [(by decide : (str "``").takeWhile backtickClass = [])]
    simp
  have hgd : (txt ++ str "``").drop txt.length = str "``" := List.drop_left txt _
  refine ⟨?_, ?_, ?_⟩
  · have hsw : lstartsWith (str "``") ('`' :: ('`' :: (txt ++ str "``"))) = true := by
      simp [str, lstartsWith]
    have hm : matchBacktickAt ('`' :: ('`' :: (txt ++ str "``")))
        = some (replaceBacktickLink txt, txt.length + 3 + 1) := by
      have hdrop : ('`' :: ('`' :: (txt ++ str "``"))).drop 2 = txt ++ str "``" := rfl
      simp only [matchBacktickAt, hsw, if_true, hdrop, hg, hgd]
      rw [if_neg h1]
      rw [(by decide : lstartsWith (str "``") (str "``") = true)]
      simp only [if_true, Option.some.injEq, Prod.mk.injEq]
      refine ⟨trivial, by omega⟩
    show reSubP matchBacktickAt ('`' :: ('`' :: (txt ++ str "``")))
        = replaceBacktickLink txt
    rw [reSubP_match matchBacktickAt '`' ('`' :: (txt ++ str "``"))
        (replaceBacktickLink txt) (txt.length + 3) hm]
    have hlen : ('`' :: (txt ++ str "``")).length = txt.length + 3 := by
      simp [(by decide : (str "``").length = 2)]
    rw [List.drop_eq_nil_of_le (le_of_eq hlen)]
    rw [reSubP_nil]
    simp
  · intro h
    simp [replaceBacktickLink, h]
  · intro h
    simp [replaceBacktickLink, h]

/-- Witness for C8 (amended) on the token `~IMP.atom.read_pdb`. -/
theorem C8_amended_witness :
    subBacktick (str "``" ++ str "~IMP.atom.read_pdb" ++ str "``")
      = replaceBacktickLink (str "~IMP.atom.read_pdb") ∧
    (lstartsWith (str "~") (str "~IMP.atom.read_pdb") = true →
      replaceBacktickLink (str "~IMP.atom.read_pdb")
        = str "[" ++ lastSplitColons (lastSplitDot (str "~IMP.atom.read_pdb"))
            ++ str "](@ref " ++ (str "~IMP.atom.read_pdb").tail ++ str ")") ∧
    (lstartsWith (str "~") (str "~IMP.atom.read_pdb") = false →
      replaceBacktickLink (str "~IMP.atom.read_pdb")
        = str "[" ++ str "~IMP.atom.read_pdb" ++ str "](@ref "
            ++ str "~IMP.atom.read_pdb" ++ str ")") :=
  C8_amended (str "~IMP.atom.read_pdb") (by decide) (by decide)

/-!
## C7: inherited members registered under the base class
-/

theorem refsGet_cons_self (refs : List (List Char × List Char)) (k v : List Char) :
    refsGet ((k, v) :: refs) k = some v := by
  simp [refsGet, List.find?]

theorem refsGet_cons_ne (refs : List (List Char × List Char)) (k' v' k : List Char)
    (h : k' ≠ k) : refsGet ((k', v') :: refs) k = refsGet refs k := by
  have hb : (k' == k) = false := beq_false_of_ne h
  simp [refsGet, List.find?, hb]

/-- `takeWhile (· ≠ ':')` of the reversal of `x ++ "::" ++ a` recovers the
colon-free suffix `a` reversed. -/
theorem revTakeColon (x a : List Char) (ha : ∀ c ∈ a, c ≠ ':') :
    (x ++ str "::" ++ a).reverse.takeWhile (fun c => c != ':') = a.reverse := by
  rw [List.reverse_append]
  rw [takeWhile_append_of_all _
    (fun c hc => by
      have := ha c (List.mem_reverse.mp hc)
      simp [this])]
  rw [List.reverse_append]
  rw [(by decide : (str "::").reverse = [':', ':'])]
  simp only [List.cons_append, List.nil_append]
  rw [takeWhile_eq_nil_of_head _ (by decide)]
  simp

/-- Keys of the shape `cls ++ "::" ++ name` with colon-free names agree only
when the names agree. -/
theorem colonfree_key_inj (x y a b : List Char) (ha : ∀ c ∈ a, c ≠ ':')
    (hb : ∀ c ∈ b, c ≠ ':')
    (h : x ++ str "::" ++ a = y ++ str "::" ++ b) : a = b := by
  have e1 := revTakeColon x a ha
  have e2 := revTakeColon y b hb
  rw [h] at e1
  rw [e2] at e1
  exact List.reverse_injective e1.symm

theorem addMemberStep_pos (clsname b urltop : List Char)
    (refs : List (List Char × List Char)) (m : Member)
    (htk : m.tag = str "member" ∧ m.kind = str "function")
    (hc : b ≠ [] ∧ (colonsToUnderscore b ++ str ".html").isSuffixOf m.anchorfile = true) :
    addMemberStep clsname (some b) urltop refs m
      = (b ++ str "::" ++ m.name, memberUrl urltop m)
        :: (clsname ++ str "::" ++ m.name, memberUrl urltop m) :: refs := by
  rw [addMemberStep, if_pos htk]
  change (if b ≠ [] ∧ (colonsToUnderscore b ++ str ".html").isSuffixOf m.anchorfile = true
      then refsPut (refsPut refs (clsname ++ str "::" ++ m.name) (memberUrl urltop m))
             (b ++ str "::" ++ m.name) (memberUrl urltop m)
      else refsPut refs (clsname ++ str "::" ++ m.name) (memberUrl urltop m)) = _
  rw [if_pos hc]
  rfl

theorem addMemberStep_nosuffix (clsname b urltop : List Char)
    (refs : List (List Char × List Char)) (m : Member)
    (htk : m.tag = str "member" ∧ m.kind = str "function")
    (hc : ¬ (b ≠ [] ∧ (colonsToUnderscore b ++ str ".html").isSuffixOf m.anchorfile = true)) :
    addMemberStep clsname (some b) urltop refs m
      = (clsname ++ str "::" ++ m.name, memberUrl urltop m) :: refs := by
  rw [addMemberStep, if_pos htk]
  change (if b ≠ [] ∧ (colonsToUnderscore b ++ str ".html").isSuffixOf m.anchorfile = true
      then refsPut (refsPut refs (clsname ++ str "::" ++ m.name) (memberUrl urltop m))
             (b ++ str "::" ++ m.name) (memberUrl urltop m)
      else refsPut refs (clsname ++ str "::" ++ m.name) (memberUrl urltop m)) = _
  rw [if_neg hc]
  rfl

theorem addMemberStep_notfn (clsname b urltop : List Char)
    (refs : List (List Char × List Char)) (m : Member)
    (htk : ¬ (m.tag = str "member" ∧ m.kind = str "function")) :
    addMemberStep clsname (some b) urltop refs m = refs := by
  rw [addMemberStep, if_neg htk]

/-- Later members of the compound do not disturb a binding whose key none
of them writes. -/
theorem addMemberStep_foldl_preserve (clsname b urltop : List Char)
    (post : List Member) (refs : List (List Char × List Char))
    (K v : List Char) (hK : refsGet refs K = some v)
    (hdiff : ∀ m ∈ post, m.tag = str "member" → m.kind = str "function" →
       clsname ++ str "::" ++ m.name ≠ K ∧ b ++ str "::" ++ m.name ≠ K) :
    refsGet (List.foldl (addMemberStep clsname (some b) urltop) refs post) K
      = some v := by
  induction post generalizing refs with
  | nil => exact hK
  | cons m ms ih =>
    simp only [List.foldl_cons]
    refine ih (addMemberStep clsname (some b) urltop refs m) ?_
      (fun m' hm' => hdiff m' (by simp [hm']))
    by_cases htk : m.tag = str "member" ∧ m.kind = str "function"
    · obtain ⟨h1, h2⟩ := hdiff m (by simp) htk.1 htk.2
      by_cases hc : b ≠ [] ∧ (colonsToUnderscore b ++ str ".html").isSuffixOf m.anchorfile = true
      · rw [addMemberStep_pos clsname b urltop refs m htk hc,
          refsGet_cons_ne _ _ _ _ h2, refsGet_cons_ne _ _ _ _ h1]
        exact hK
      · rw [addMemberStep_nosuffix clsname b urltop refs m htk hc,
          refsGet_cons_ne _ _ _ _ h1]
        exact hK
    · rw [addMemberStep_notfn clsname b urltop refs m htk]
      exact hK

/-- C7 counterexample: a derived-class compound with base `B` listing two
`function` members named `m` — an inherited one whose anchorfile ends in
`B.html`, then the derived class's own one.  The inherited member is
registered under both `D::m` and `B::m`, but the later member overwrites
`D::m` (last-writer-wins), so the two names resolve to different URLs. -/
theorem C7_counterexample :
    (colonsToUnderscore (str "B") ++ str ".html").isSuffixOf (str "B.html") = true ∧
    refsGet (addMemberTags (str "D") (some (str "B")) (str "u/") []
        [⟨str "member", str "function", str "m", str "B.html", str "a1"⟩,
         ⟨str "member", str "function", str "m", str "classD.html", str "a2"⟩])
      (str "D::m") = some (str "u/classD.html#a2") ∧
    refsGet (addMemberTags (str "D") (some (str "B")) (str "u/") []
        [⟨str "member", str "function", str "m", str "B.html", str "a1"⟩,
         ⟨str "member", str "function", str "m", str "classD.html", str "a2"⟩])
      (str "B::m") = some (str "u/B.html#a1") ∧
    str "u/classD.html#a2" ≠ str "u/B.html#a1" := by
  decide

/-- C7 (amended): a function member whose anchorfile ends with the base
class's expected filename is registered under both the derived and the
base class name with the same URL, and when no later function member of
the same compound shares its (colon-free) name, both names still resolve
to that one URL after the whole compound is processed. -/
theorem C7_amended (refs0 : List (List Char × List Char))
    (clsname b urltop : List Char) (pre post : List Member) (mem : Member)
    (hb : b ≠ [])
    (htag : mem.tag = str "member") (hkind : mem.kind = str "function")
    (hsuf : (colonsToUnderscore b ++ str ".html").isSuffixOf mem.anchorfile = true)
    (hmc : ∀ c ∈ mem.name, c ≠ ':')
    (hpost : ∀ m ∈ post, m.tag = str "member" → m.kind = str "function" →
       m.name ≠ mem.name ∧ ∀ c ∈ m.name, c ≠ ':') :
    refsGet (addMemberTags clsname (some b) urltop refs0 (pre ++ mem :: post))
        (clsname ++ str "::" ++ mem.name) = some (memberUrl urltop mem) ∧
    refsGet (addMemberTags clsname (some b) urltop refs0 (pre ++ mem :: post))
        (b ++ str "::" ++ mem.name) = some (memberUrl urltop mem) := by
  have hdiff : ∀ K : List Char,
      (∃ z : List Char, K = z ++ str "::" ++ mem.name) →
      ∀ m ∈ post, m.tag = str "member" → m.kind = str "function" →
        clsname ++ str "::" ++ m.name ≠ K ∧ b ++ str "::" ++ m.name ≠ K := by
    rintro K ⟨z, rfl⟩ m hm ht hk
    obtain ⟨hne, hcf⟩ := hpost m hm ht hk
    constructor
    · intro he
      exact hne (colonfree_key_inj clsname z m.name mem.name hcf hmc he)
    · intro he
      exact hne (colonfree_key_inj b z m.name mem.name hcf hmc he)
  rw [addMemberTags, List.foldl_append, List.foldl_cons,
    addMemberStep_pos clsname b urltop _ mem ⟨htag, hkind⟩ ⟨hb, hsuf⟩]
  constructor
  · refine addMemberStep_foldl_preserve clsname b urltop post _ _ _ ?_
      (hdiff _ ⟨clsname, rfl⟩)
    by_cases he : (b ++ str "::" ++ mem.name) = (clsname ++ str "::" ++ mem.name)
    · rw [he]
      exact refsGet_cons_self _ _ _
    · rw [refsGet_cons_ne _ _ _ _ he]
      exact refsGet_cons_self _ _ _
  · refine addMemberStep_foldl_preserve clsname b urltop post _ _ _ ?_
      (hdiff _ ⟨b, rfl⟩)
    exact refsGet_cons_self _ _ _

/-- Witness for C7 (amended): class `Foo` with base `Bar` and one inherited
method `m` filed under `Foo` whose anchorfile is `classBar.html`. -/
theorem C7_amended_witness :
    refsGet (addMemberTags (str "Foo") (some (str "Bar")) (str "u/") []
        ([] ++ (⟨str "member", str "function", str "m", str "classBar.html",
                 str "a1"⟩ : Member) :: []))
      (str "Foo" ++ str "::" ++ str "m")
      = some (memberUrl (str "u/")
          ⟨str "member", str "function", str "m", str "classBar.html", str "a1"⟩) ∧
    refsGet (addMemberTags (str "Foo") (some (str "Bar")) (str "u/") []
        ([] ++ (⟨str "member", str "function", str "m", str "classBar.html",
                 str "a1"⟩ : Member) :: []))
      (str "Bar" ++ str "::" ++ str "m")
      = some (memberUrl (str "u/")
          ⟨str "member", str "function", str "m", str "classBar.html", str "a1"⟩) :=
  C7_amended [] (str "Foo") (str "Bar") (str "u/") [] []
    ⟨str "member", str "function", str "m", str "classBar.html", str "a1"⟩
    (by decide) rfl rfl (by decide) (by decide) (by simp)

/-!
## C3 and C10: the link-fixing passes
-/

theorem takeWhile_all {p : Char → Bool} {a : List Char} (h : ∀ c ∈ a, p c = true) :
    a.takeWhile p = a := by
  induction a with
  | nil => rfl
  | cons x xs ih =>
    simp only [List.takeWhile_cons, h x (by simp), if_true]
    rw [ih (fun c hc => h c (by simp [hc]))]

theorem lstartsWith_head_ne {p0 c : Char} (ps cs : List Char) (h : c ≠ p0) :
    lstartsWith (p0 :: ps) (c :: cs) = false := by
  have hb : (p0 == c) = false := beq_false_of_ne (fun he => h he.symm)
  simp [lstartsWith, hb]

theorem matchIncludeAt_none_of_head (fs : List (List Char × List Char))
    {c : Char} (cs : List Char) (h : c ≠ '%') :
    matchIncludeAt fs (c :: cs) = none := by
  have hf : lstartsWith (str "%%include") (c :: cs) = false := by
    rw [(rfl : str "%%include" = '%' :: str "%include")]
    exact lstartsWith_head_ne _ _ h
  simp [matchIncludeAt, hf]

theorem matchBacktickAt_none_of_head {c : Char} (cs : List Char) (h : c ≠ '`') :
    matchBacktickAt (c :: cs) = none := by
  have hf : lstartsWith (str "``") (c :: cs) = false := by
    rw [(rfl : str "``" = '`' :: str "`")]
    exact lstartsWith_head_ne _ _ h
  simp [matchBacktickAt, hf]

theorem matchRefAt_none_of_head (refs : List (List Char × List Char))
    {c : Char} (cs : List Char) (h : c ≠ '@') :
    matchRefAt refs (c :: cs) = none := by
  have hf : lstartsWith (str "@ref") (c :: cs) = false := by
    rw [(rfl : str "@ref" = '@' :: str "ref")]
    exact lstartsWith_head_ne _ _ h
  simp [matchRefAt, hf]

/-- Text without `%` passes the include scan unchanged. -/
theorem subInclude_no_pct (fs : List (List Char × List Char)) (l : List Char)
    (h : ∀ c ∈ l, c ≠ '%') : subInclude fs l = .ok l := by
  induction l with
  | nil => rfl
  | cons c cs ih =>
    show reSubE (matchIncludeAt fs) (c :: cs) = .ok (c :: cs)
    rw [reSubE_skip _ c cs (matchIncludeAt_none_of_head fs cs (h c (by simp)))]
    have := ih (fun x hx => h x (by simp [hx]))
    rw [show subInclude fs cs = reSubE (matchIncludeAt fs) cs from rfl] at this
    rw [this]
    rfl

/-- Text without backticks passes the backtick scan unchanged. -/
theorem subBacktick_no_bt (l : List Char) (h : ∀ c ∈ l, c ≠ '`') :
    subBacktick l = l := by
  induction l with
  | nil => rfl
  | cons c cs ih =>
    show reSubP matchBacktickAt (c :: cs) = c :: cs
    rw [reSubP_skip _ c cs (matchBacktickAt_none_of_head cs (h c (by simp)))]
    have := ih (fun x hx => h x (by simp [hx]))
    rw [show subBacktick cs = reSubP matchBacktickAt cs from rfl] at this
    rw [this]

/-- The include scan distributes over a `%`-free prefix. -/
theorem subInclude_pre (fs : List (List Char × List Char)) (pre rest : List Char)
    (h : ∀ c ∈ pre, c ≠ '%') :
    subInclude fs (pre ++ rest) = (subInclude fs rest).map (fun t => pre ++ t) := by
  induction pre with
  | nil =>
    cases hr : subInclude fs rest with
    | error e => simp [hr, Except.map]
    | ok t => simp [hr, Except.map]
  | cons c cs ih =>
    show reSubE (matchIncludeAt fs) (c :: (cs ++ rest))
        = (subInclude fs rest).map (fun t => (c :: cs) ++ t)
    rw [reSubE_skip _ c (cs ++ rest)
        (matchIncludeAt_none_of_head fs (cs ++ rest) (h c (by simp)))]
    have hih := ih (fun x hx => h x (by simp [hx]))
    rw [show subInclude fs (cs ++ rest) = reSubE (matchIncludeAt fs) (cs ++ rest)
        from rfl] at hih
    rw [hih]
    cases hr : subInclude fs rest with
    | error e => rfl
    | ok t => rfl

/-- `matchRefAt` at a well-formed `@ref` occurrence. -/
theorem matchRefAt_start (refs : List (List Char × List Char)) (X post : List Char)
    (hX1 : X ≠ []) (hXc : ∀ c ∈ X, refClass c = true)
    (hpb : post.takeWhile refClass = []) :
    matchRefAt refs (str "@ref " ++ (X ++ post))
      = some (replaceRefLink refs X, 4 + 1 + X.length) := by
  obtain ⟨x0, xs, rfl⟩ : ∃ x0 xs, X = x0 :: xs := by
    cases X with
    | nil => exact absurd rfl hX1
    | cons a b => exact ⟨a, b, rfl⟩
  have hx0 : refClass x0 = true := hXc x0 (by simp)
  have hx0s : isPySpace x0 = false := by
    simp only [refClass, Bool.and_eq_true, Bool.not_eq_true'] at hx0
    exact hx0.1
  show matchRefAt refs (str "@ref" ++ (' ' :: ((x0 :: xs) ++ post)))
      = some (replaceRefLink refs (x0 :: xs), 4 + 1 + (x0 :: xs).length)
  have h1 : lstartsWith (str "@ref") (str "@ref" ++ (' ' :: ((x0 :: xs) ++ post)))
      = true := lsw_true_of _ _ _ (by decide) (by decide)
  have h2 : (str "@ref" ++ (' ' :: ((x0 :: xs) ++ post))).drop 4
      = ' ' :: ((x0 :: xs) ++ post) := List.drop_left' (by decide)
  have h3 : (' ' :: ((x0 :: xs) ++ post)).takeWhile isPySpace = [' '] := by
    rw [List.takeWhile_cons]
    simp only [(by decide : isPySpace ' ' = true), if_true]
    rw [List.cons_append, takeWhile_eq_nil_of_head _ hx0s]
  have h4 : (' ' :: ((x0 :: xs) ++ post)).dropWhile isPySpace
      = (x0 :: xs) ++ post := by
    rw [List.dropWhile_cons]
    simp only [(by decide : isPySpace ' ' = true), if_true]
    rw [List.cons_append, dropWhile_eq_self_of_head _ hx0s]
  have h5 : ((x0 :: xs) ++ post).takeWhile refClass = x0 :: xs := by
    rw [takeWhile_append_of_all _ hXc, hpb]
    simp
  rw [matchRefAt, h1]
  simp only [if_true, h2, h3, h4, h5]
  simp

/-- `matchIncludeAt` at a well-formed `%%include` occurrence. -/
theorem matchIncludeAt_start (fs : List (List Char × List Char))
    (name post : List Char) (hn1 : name ≠ [])
    (hnc : ∀ c ∈ name, refClass c = true)
    (hpb : post.takeWhile refClass = []) :
    matchIncludeAt fs (str "%%include " ++ (name ++ post))
      = some ((match refsGet fs name with
               | some contents => Except.ok contents
               | none => Except.error (str "No such file: " ++ name)),
          9 + 1 + name.length) := by
  obtain ⟨x0, xs, rfl⟩ : ∃ x0 xs, name = x0 :: xs := by
    cases name with
    | nil => exact absurd rfl hn1
    | cons a b => exact ⟨a, b, rfl⟩
  have hx0 : refClass x0 = true := hnc x0 (by simp)
  have hx0s : isPySpace x0 = false := by
    simp only [refClass, Bool.and_eq_true, Bool.not_eq_true'] at hx0
    exact hx0.1
  show matchIncludeAt fs (str "%%include" ++ (' ' :: ((x0 :: xs) ++ post)))
      = some ((match refsGet fs (x0 :: xs) with
               | some contents => Except.ok contents
               | none => Except.error (str "No such file: " ++ (x0 :: xs))),
          9 + 1 + (x0 :: xs).length)
  have h1 : lstartsWith (str "%%include")
        (str "%%include" ++ (' ' :: ((x0 :: xs) ++ post))) = true :=
    lsw_true_of _ _ _ (by decide) (by decide)
  have h2 : (str "%%include" ++ (' ' :: ((x0 :: xs) ++ post))).drop 9
      = ' ' :: ((x0 :: xs) ++ post) := List.drop_left' (by decide)
  have h3 : (' ' :: ((x0 :: xs) ++ post)).takeWhile isPySpace = [' '] := by
    rw [List.takeWhile_cons]
    simp only [(by decide : isPySpace ' ' = true), if_true]
    rw [List.cons_append, takeWhile_eq_nil_of_head _ hx0s]
  have h4 : (' ' :: ((x0 :: xs) ++ post)).dropWhile isPySpace
      = (x0 :: xs) ++ post := by
    rw [List.dropWhile_cons]
    simp only [(by decide : isPySpace ' ' = true), if_true]
    rw [List.cons_append, dropWhile_eq_self_of_head _ hx0s]
  have h5 : ((x0 :: xs) ++ post).takeWhile refClass = x0 :: xs := by
    rw [takeWhile_append_of_all _ hnc, hpb]
    simp
  rw [matchIncludeAt, h1]
  simp only [if_true, h2, h3, h4, h5]
  simp

theorem refsGet_value_ne_nil (refs : List (List Char × List Char)) (k u : List Char)
    (hne : ∀ kv ∈ refs, kv.2 ≠ []) (h : refsGet refs k = some u) : u ≠ [] := by
  simp only [refsGet] at h
  obtain ⟨kv, hf, hv⟩ := Option.map_eq_some'.mp h
  exact hv ▸ hne kv (List.mem_of_find?_eq_some hf)

/-- C3: `@ref` resolution — verbatim lookup first, then with `.` replaced by
`::`, and a fatal "Bad @ref link" error when neither is found; a resolved
`@ref X` cell text becomes the bare URL with no `@ref` markup left.  (The
stored URLs are assumed non-empty, as the program builds them: Python's
`or` would treat an empty URL as missing.) -/
theorem C3_ref_resolution (fs refs : List (List Char × List Char)) (X : List Char)
    (hne : ∀ kv ∈ refs, kv.2 ≠ [])
    (hX1 : X ≠ []) (hXc : ∀ c ∈ X, refClass c = true)
    (hXp : ∀ c ∈ X, c ≠ '%') (hXb : ∀ c ∈ X, c ≠ '`') :
    (∀ u, refsGet refs X = some u → replaceRefLink refs X = .ok u) ∧
    (refsGet refs X = none → ∀ u, refsGet refs (dotToColons X) = some u →
       replaceRefLink refs X = .ok u) ∧
    (refsGet refs X = none → refsGet refs (dotToColons X) = none →
       ∃ msg, replaceRefLink refs X = .error msg) ∧
    (∀ u, refsGet refs X = some u →
       fixLinks fs refs (str "@ref " ++ X) = .ok u) := by
  have hrep : ∀ u, refsGet refs X = some u → replaceRefLink refs X = .ok u := by
    intro u hu
    have hu0 : u ≠ [] := refsGet_value_ne_nil refs X u hne hu
    simp [replaceRefLink, hu, hu0]
  refine ⟨hrep, ?_, ?_, ?_⟩
  · intro h0 u hu2
    have hu0 : u ≠ [] := refsGet_value_ne_nil refs _ u hne hu2
    simp [replaceRefLink, h0, hu2, hu0]
  · intro h0 h1
    simp only [replaceRefLink, h0, h1]
    exact ⟨_, rfl⟩
  · intro u hu
    have hrr := hrep u hu
    have hincl : subInclude fs (str "@ref " ++ X) = .ok (str "@ref " ++ X) := by
      refine subInclude_no_pct fs _ ?_
      intro c hc
      rcases List.mem_append.mp hc with h | h
      · exact (by decide : ∀ c ∈ str "@ref ", c ≠ '%') c h
      · exact hXp c h
    have hbt : subBacktick (str "@ref " ++ X) = str "@ref " ++ X := by
      refine subBacktick_no_bt _ ?_
      intro c hc
      rcases List.mem_append.mp hc with h | h
      · exact (by decide : ∀ c ∈ str "@ref ", c ≠ '`') c h
      · exact hXb c h
    have hfl : fixLinks fs refs (str "@ref " ++ X)
        = subRef refs (subBacktick (str "@ref " ++ X)) := by
      rw [fixLinks, hincl]
      rfl
    rw [hfl, hbt]
    have e : str "@ref " ++ X = str "@ref " ++ (X ++ []) := by simp
    rw [e]
    have hm := matchRefAt_start refs X [] hX1 hXc rfl
    have hm' : matchRefAt refs ('@' :: (str "ref " ++ (X ++ [])))
        = some (replaceRefLink refs X, (4 + X.length) + 1) := by
      rw [show ('@' :: (str "ref " ++ (X ++ []))) = str "@ref " ++ (X ++ []) from rfl,
        hm]
      simp only [Option.some.injEq, Prod.mk.injEq]
      exact ⟨trivial, by omega⟩
    show reSubE (matchRefAt refs) ('@' :: (str "ref " ++ (X ++ []))) = .ok u
    rw [reSubE_match _ '@' (str "ref " ++ (X ++ []))
        (replaceRefLink refs X) (4 + X.length) hm']
    have hdropnil : (str "ref " ++ (X ++ [])).drop (4 + X.length) = [] := by
      apply List.drop_eq_nil_of_le
      simp [(by decide : (str "ref ").length = 4)]
    rw [hdropnil, reSubE_nil, hrr]
    show Except.ok (u ++ []) = Except.ok u
    rw [List.append_nil]

/-- Witness for C3 with a one-entry table. -/
theorem C3_ref_resolution_witness :
    replaceRefLink [(str "Foo", str "u")] (str "Foo") = .ok (str "u") ∧
    fixLinks [] [(str "Foo", str "u")] (str "@ref " ++ str "Foo")
      = .ok (str "u") :=
  ⟨(C3_ref_resolution [] [(str "Foo", str "u")] (str "Foo") (by decide)
      (by decide) (by decide) (by decide) (by decide)).1 (str "u") (by decide),
   (C3_ref_resolution [] [(str "Foo", str "u")] (str "Foo") (by decide)
      (by decide) (by decide) (by decide) (by decide)).2.2.2 (str "u") (by decide)⟩

/-- C10: `fix_links` expands `%%include` exactly once and non-recursively —
the named file's contents are spliced in verbatim (a `%%include` inside
them is left as literal text, since the replacement is never rescanned),
scanning resumes after the directive, and the spliced text then flows
through the backtick and `@ref` passes. -/
theorem C10_include_once (fs refs : List (List Char × List Char))
    (pre name contents post : List Char)
    (hpre : ∀ c ∈ pre, c ≠ '%')
    (hn1 : name ≠ []) (hnc : ∀ c ∈ name, refClass c = true)
    (hpb : post.takeWhile refClass = [])
    (hfs : refsGet fs name = some contents) :
    subInclude fs (pre ++ (str "%%include " ++ (name ++ post)))
      = (subInclude fs post).map (fun t => pre ++ (contents ++ t)) ∧
    (∀ t1, subInclude fs post = .ok t1 →
       fixLinks fs refs (pre ++ (str "%%include " ++ (name ++ post)))
         = subRef refs (subBacktick (pre ++ (contents ++ t1)))) := by
  have hm := matchIncludeAt_start fs name post hn1 hnc hpb
  rw [hfs] at hm
  have hm' : matchIncludeAt fs ('%' :: (str "%include " ++ (name ++ post)))
      = some (.ok contents, (9 + name.length) + 1) := by
    rw [show ('%' :: (str "%include " ++ (name ++ post)))
        = str "%%include " ++ (name ++ post) from rfl]
    rw [show matchIncludeAt fs (str "%%include " ++ (name ++ post))
        = some (Except.ok contents, 9 + 1 + name.length) from hm]
    simp only [Option.some.injEq, Prod.mk.injEq]
    exact ⟨trivial, by omega⟩
  have hcore : subInclude fs (str "%%include " ++ (name ++ post))
      = (subInclude fs post).map (fun t => contents ++ t) := by
    show reSubE (matchIncludeAt fs) ('%' :: (str "%include " ++ (name ++ post)))
        = (subInclude fs post).map (fun t => contents ++ t)
    rw [reSubE_match _ '%' (str "%include " ++ (name ++ post))
        (.ok contents) (9 + name.length) hm']
    have hdrop : (str "%include " ++ (name ++ post)).drop (9 + name.length)
        = post := by
      rw [show str "%include " ++ (name ++ post)
          = (str "%include " ++ name) ++ post from by rw [List.append_assoc]]
      refine List.drop_left' ?_
      simp [(by decide : (str "%include ").length = 9)]
    rw [hdrop]
    rw [show reSubE (matchIncludeAt fs) post = subInclude fs post from rfl]
    cases ht : subInclude fs post with
    | error e => rfl
    | ok t => rfl
  have hfull : subInclude fs (pre ++ (str "%%include " ++ (name ++ post)))
      = (subInclude fs post).map (fun t => pre ++ (contents ++ t)) := by
    rw [subInclude_pre fs pre _ hpre, hcore]
    cases ht : subInclude fs post with
    | error e => rfl
    | ok t => rfl
  refine ⟨hfull, ?_⟩
  intro t1 ht1
  rw [fixLinks, hfull, ht1]
  rfl

/-- Witness for C10: the included file's contents are themselves a
`%%include` directive, which survives literally in the output. -/
theorem C10_include_once_witness :
    subInclude [(str "f.txt", str "%%include g.txt")]
        ([] ++ (str "%%include " ++ (str "f.txt" ++ [])))
      = (subInclude [(str "f.txt", str "%%include g.txt")] []).map
          (fun t => [] ++ (str "%%include g.txt" ++ t)) :=
  (C10_include_once [(str "f.txt", str "%%include g.txt")] [] []
    (str "f.txt") (str "%%include g.txt") [] (by decide) (by decide)
    (by decide) (by decide) (by decide)).1

/-!
## C6: synthetic anchors and heading reparsing
-/

theorem mem_takeWhile {p : Char → Bool} {c : Char} :
    ∀ {l : List Char}, c ∈ l.takeWhile p → p c = true := by
  intro l
  induction l with
  | nil => intro h; simp at h
  | cons x xs ih =>
    intro h
    rw [List.takeWhile_cons] at h
    by_cases hx : p x = true
    · rw [if_pos hx] at h
      rcases List.mem_cons.mp h with rfl | h2
      · exact hx
      · exact ih h2
    · rw [if_neg hx] at h
      simp at h

theorem dropWhile_ne_nil_of_mem_not {p : Char → Bool} {c : Char} :
    ∀ {l : List Char}, c ∈ l → p c = false → l.dropWhile p ≠ [] := by
  intro l
  induction l with
  | nil => intro h; simp at h
  | cons x xs ih =>
    intro h hpc
    rw [List.dropWhile_cons]
    by_cases hx : p x = true
    · rw [if_pos hx]
      rcases List.mem_cons.mp h with rfl | h2
      · rw [hx] at hpc; cases hpc
      · exact ih h2 hpc
    · rw [if_neg hx]
      simp

theorem all_of_dropWhile_eq_nil {p : Char → Bool} :
    ∀ {l : List Char}, l.dropWhile p = [] → ∀ c ∈ l, p c = true := by
  intro l
  induction l with
  | nil => intro _ c hc; simp at hc
  | cons x xs ih =>
    intro h c hc
    rw [List.dropWhile_cons] at h
    by_cases hx : p x = true
    · rw [if_pos hx] at h
      rcases List.mem_cons.mp hc with rfl | h2
      · exact hx
      · exact ih h c h2
    · rw [if_neg hx] at h
      simp at h

theorem dropWhile_head_false {p : Char → Bool} {c : Char} {l cs : List Char}
    (h : l.dropWhile p = c :: cs) : p c = false := by
  induction l with
  | nil => simp at h
  | cons x xs ih =>
    rw [List.dropWhile_cons] at h
    by_cases hx : p x = true
    · rw [if_pos hx] at h
      exact ih h
    · rw [if_neg hx] at h
      cases h
      simpa using hx

theorem takeWhile_append_of_not_all {p : Char → Bool} {a : List Char} (b : List Char)
    (h : a.dropWhile p ≠ []) :
    (a ++ b).takeWhile p = a.takeWhile p := by
  induction a with
  | nil => simp at h
  | cons x xs ih =>
    by_cases hx : p x = true
    · simp only [List.dropWhile_cons, hx, if_true] at h
      simp only [List.cons_append, List.takeWhile_cons, hx, if_true]
      rw [ih h]
    · replace hx : p x = false := by simpa using hx
      simp [List.takeWhile_cons, hx]

theorem digit_class (d : Nat) (hd : d < 10) :
    inAnchorClass (Char.ofNat (48 + d)) = true := by
  interval_cases d <;> decide

theorem natCharsGo_class : ∀ (f n : Nat), ∀ c ∈ natCharsGo f n, inAnchorClass c = true := by
  intro f
  induction f with
  | zero => intro n c hc; simp [natCharsGo] at hc
  | succ f ih =>
    intro n c hc
    rw [natCharsGo] at hc
    by_cases hn : n < 10
    · rw [if_pos hn] at hc
      rcases List.mem_singleton.mp hc with rfl
      exact digit_class n hn
    · rw [if_neg hn] at hc
      rcases List.mem_append.mp hc with h | h
      · exact ih (n / 10) c h
      · rcases List.mem_singleton.mp h with rfl
        exact digit_class (n % 10) (Nat.mod_lt _ (by omega))

theorem autoAnchor_class (fn k : Nat) :
    ∀ c ∈ autoAnchor fn k, inAnchorClass c = true := by
  intro c hc
  simp only [autoAnchor, List.append_assoc, List.mem_append] at hc
  rcases hc with h | h | h | h
  · exact (by decide : ∀ c ∈ str "autotoc", inAnchorClass c = true) c h
  · exact natCharsGo_class _ _ c h
  · exact (by decide : ∀ c ∈ str "v", inAnchorClass c = true) c h
  · exact natCharsGo_class _ _ c h

theorem autoAnchor_ne_nil (fn k : Nat) : autoAnchor fn k ≠ [] := by
  simp only [autoAnchor, List.append_assoc]
  intro h
  rcases List.append_eq_nil.mp h with ⟨h1, _⟩
  exact (by decide : str "autotoc" ≠ []) h1

/-- Characterisation of the lazy `(.*?)\s*$` matcher: the title is the least
newline-free prefix whose remainder is all whitespace; consequently the
remainder is all whitespace, the title contains no newline, and its last
character (if any) is not whitespace. -/
theorem findTitleEnd_spec :
    ∀ (l t : List Char), findTitleEnd l = some t →
      ∃ z, l = t ++ z ∧ z.all isPySpace = true ∧ (∀ c ∈ t, c ≠ '\n') ∧
        (∀ t0 c0, t = t0 ++ [c0] → isPySpace c0 = false) := by
  intro l
  induction l with
  | nil =>
    intro t ht
    rw [findTitleEnd] at ht
    cases ht
    exact ⟨[], rfl, rfl, by simp, by intro t0 c0 h; simp at h⟩
  | cons c cs ih =>
    intro t ht
    rw [findTitleEnd] at ht
    by_cases hall : (c :: cs).all isPySpace = true
    · rw [if_pos hall] at ht
      cases ht
      exact ⟨c :: cs, rfl, hall, by simp, by intro t0 c0 h; simp at h⟩
    · rw [if_neg hall] at ht
      by_cases hc : c = '\n'
      · rw [if_pos hc] at ht
        cases ht
      · rw [if_neg hc] at ht
        obtain ⟨t', ht', rfl⟩ := Option.map_eq_some'.mp ht
        obtain ⟨z, rfl, hz, hnl, hlast⟩ := ih t' ht'
        refine ⟨z, rfl, hz, ?_, ?_⟩
        · intro x hx
          rcases List.mem_cons.mp hx with rfl | h2
          · exact hc
          · exact hnl x h2
        · intro t0 c0 h0
          cases t0 with
          | nil =>
            simp only [List.nil_append] at h0
            obtain ⟨hc0, ht2⟩ := List.cons.inj h0
            subst ht2
            rw [List.nil_append] at hall
            simp only [List.all_cons, Bool.and_eq_true] at hall
            rw [← hc0]
            by_cases hsp : isPySpace c = true
            · exact absurd ⟨hsp, hz⟩ hall
            · simpa using hsp
          | cons d t0' =>
            simp only [List.cons_append] at h0
            obtain ⟨hc0, ht2⟩ := List.cons.inj h0
            exact hlast t0' c0 ht2

/-- If the lazy anchor scan fails on `u ++ v` and `u` is newline-free, then
`anchorTail` fails at every scan position inside `u` (and at its end). -/
theorem findTitleAnchor_none_parts :
    ∀ (u v : List Char), findTitleAnchor (u ++ v) = none →
      (∀ c ∈ u, c ≠ '\n') → ∀ k, k ≤ u.length → anchorTail (u.drop k ++ v) = none := by
  intro u
  induction u with
  | nil =>
    intro v h _ k hk
    have hk0 : k = 0 := Nat.le_zero.mp hk
    subst hk0
    simp only [List.drop_nil, List.nil_append]
    cases v with
    | nil => decide
    | cons c cs =>
      rw [List.nil_append] at h
      simp only [findTitleAnchor] at h
      cases ha : anchorTail (c :: cs) with
      | none => rfl
      | some p =>
        rw [ha] at h
        simp at h
  | cons c us ih =>
    intro v h hnl k hk
    rw [List.cons_append] at h
    simp only [findTitleAnchor] at h
    cases ha : anchorTail (c :: (us ++ v)) with
    | some p =>
      rw [ha] at h
      simp at h
    | none =>
      rw [ha] at h
      have hc : c ≠ '\n' := hnl c (by simp)
      replace h : (if c = '\n' then none
          else Option.map (fun tar => (c :: tar.1, tar.2))
            (findTitleAnchor (us ++ v))) = none := h
      rw [if_neg hc] at h
      have h2 : findTitleAnchor (us ++ v) = none := Option.map_eq_none'.mp h
      cases k with
      | zero =>
        simpa using ha
      | succ k =>
        simp only [List.drop_succ_cons]
        exact ih v h2 (fun x hx => hnl x (by simp [hx])) k (by simpa using hk)

/-- The crucial locality property of `anchorTail`: if it fails on `u`
followed by all-whitespace `z`, it also fails on `u` followed by a space
and anything else — any successful match would have to close its `}`
inside `u`. -/
theorem anchorTail_boundary (u z v : List Char)
    (hu : u.dropWhile isPySpace ≠ [])
    (hz : z.all isPySpace = true)
    (h : anchorTail (u ++ z) = none) :
    anchorTail (u ++ (' ' :: v)) = none := by
  have e1 : (u ++ z).dropWhile isPySpace = u.dropWhile isPySpace ++ z :=
    dropWhile_append_of_not_all z hu
  have e2 : (u ++ (' ' :: v)).dropWhile isPySpace
      = u.dropWhile isPySpace ++ (' ' :: v) :=
    dropWhile_append_of_not_all _ hu
  have hzt : z.takeWhile inAnchorClass = [] := by
    cases z with
    | nil => rfl
    | cons z0 zs =>
      have hz0 : isPySpace z0 = true := by
        have := (List.all_cons .. ▸ hz)
        exact (Bool.and_eq_true .. ▸ this).1
      exact takeWhile_eq_nil_of_head _ (by simp [inAnchorClass, hz0])
  rcases hw : u.dropWhile isPySpace with _ | ⟨w0, wt⟩
  · exact absurd hw hu
  rw [hw] at e1 e2
  rcases wt with _ | ⟨w1, ws⟩
  · -- the non-whitespace tail is a single character
    rw [anchorTail, e2]
    simp only [List.cons_append, List.nil_append]
    split
    · next r heq =>
      obtain ⟨_, h2⟩ := List.cons.inj heq
      exact absurd (List.cons.inj h2).1 (by decide)
    · rfl
  by_cases hb : w0 = '{' ∧ w1 = '#'
  · obtain ⟨rfl, rfl⟩ := hb
    rw [anchorTail, e1] at h
    rw [anchorTail, e2]
    simp only [List.cons_append] at h ⊢
    replace h : (if (ws ++ z).takeWhile inAnchorClass = [] then none
        else match (ws ++ z).dropWhile inAnchorClass with
          | '\x7d' :: rest => some ((ws ++ z).takeWhile inAnchorClass, rest)
          | _ => none) = none := h
    show (if (ws ++ (' ' :: v)).takeWhile inAnchorClass = [] then none
        else match (ws ++ (' ' :: v)).dropWhile inAnchorClass with
          | '\x7d' :: rest => some ((ws ++ (' ' :: v)).takeWhile inAnchorClass, rest)
          | _ => none) = none
    rcases hwd : ws.dropWhile inAnchorClass with _ | ⟨d, ds⟩
    · -- every character of ws is in the anchor class
      have hall_ws : ∀ c ∈ ws, inAnchorClass c = true := all_of_dropWhile_eq_nil hwd
      have htw_v : (ws ++ (' ' :: v)).takeWhile inAnchorClass = ws := by
        rw [takeWhile_append_of_all _ hall_ws,
          takeWhile_eq_nil_of_head _ (by decide), List.append_nil]
      rw [htw_v]
      by_cases hws : ws = []
      · rw [if_pos hws]
      · rw [if_neg hws]
        have hdw_v : (ws ++ (' ' :: v)).dropWhile inAnchorClass = ' ' :: v := by
          rw [dropWhile_append_of_all _ hall_ws]
          exact dropWhile_eq_self_of_head _ (by decide)
        rw [hdw_v]
        split
        · next rest heq => exact absurd (List.cons.inj heq).1 (by decide)
        · rfl
    · -- the class run stops inside ws at character d
      have hwdne : ws.dropWhile inAnchorClass ≠ [] := by rw [hwd]; simp
      have htw_z : (ws ++ z).takeWhile inAnchorClass = ws.takeWhile inAnchorClass :=
        takeWhile_append_of_not_all z hwdne
      have htw_v : (ws ++ (' ' :: v)).takeWhile inAnchorClass
          = ws.takeWhile inAnchorClass := takeWhile_append_of_not_all _ hwdne
      have hdw_z : (ws ++ z).dropWhile inAnchorClass = (d :: ds) ++ z := by
        rw [dropWhile_append_of_not_all z hwdne, hwd]
      have hdw_v : (ws ++ (' ' :: v)).dropWhile inAnchorClass
          = (d :: ds) ++ (' ' :: v) := by
        rw [dropWhile_append_of_not_all _ hwdne, hwd]
      rw [htw_v]
      by_cases htwe : ws.takeWhile inAnchorClass = []
      · rw [if_pos htwe]
      · rw [if_neg htwe]
        rw [htw_z, if_neg htwe, hdw_z] at h
        by_cases hd : d = '\x7d'
        · subst hd
          replace h : some (ws.takeWhile inAnchorClass, ds ++ z) = none := h
          cases h
        · rw [hdw_v]
          simp only [List.cons_append]
          split
          · next rest heq => exact absurd (List.cons.inj heq).1 hd
          · rfl
  · -- the first two non-whitespace characters are not `{#`
    rw [anchorTail, e2]
    simp only [List.cons_append]
    split
    · next r heq =>
      obtain ⟨hh1, hh2⟩ := List.cons.inj heq
      exact absurd ⟨hh1, (List.cons.inj hh2).1⟩ hb
    · rfl

/-- `anchorTail` succeeds on text whose non-whitespace part is
`{#` ++ anchor ++ `}` with a well-formed anchor. -/
theorem anchorTail_synth (l A : List Char)
    (hdw : l.dropWhile isPySpace = '\x7b' :: '#' :: (A ++ ['\x7d']))
    (hA1 : A ≠ []) (hA2 : ∀ c ∈ A, inAnchorClass c = true) :
    anchorTail l = some (A, []) := by
  rw [anchorTail, hdw]
  have htw : (A ++ ['\x7d']).takeWhile inAnchorClass = A := by
    rw [takeWhile_append_of_all _ hA2, takeWhile_eq_nil_of_head _ (by decide),
      List.append_nil]
  have hdw2 : (A ++ ['\x7d']).dropWhile inAnchorClass = ['\x7d'] := by
    rw [dropWhile_append_of_all _ hA2]
    exact dropWhile_eq_self_of_head _ (by decide)
  show (if (A ++ ['\x7d']).takeWhile inAnchorClass = [] then none
      else match (A ++ ['\x7d']).dropWhile inAnchorClass with
        | '\x7d' :: rest => some ((A ++ ['\x7d']).takeWhile inAnchorClass, rest)
        | _ => none) = some (A, [])
  rw [htw, if_neg hA1, hdw2]
  rfl

/-- Rebuilding the lazy scan: when `anchorTail` fails at every position
inside the newline-free `t` but succeeds on `tail`, the scan returns `t`
as the title. -/
theorem findTitleAnchor_build :
    ∀ (t tail A rest : List Char), (∀ c ∈ t, c ≠ '\n') →
      (∀ k, k < t.length → anchorTail (t.drop k ++ tail) = none) →
      anchorTail tail = some (A, rest) →
      findTitleAnchor (t ++ tail) = some (t, A, rest) := by
  intro t
  induction t with
  | nil =>
    intro tail A rest _ _ hend
    rw [List.nil_append]
    cases tail with
    | nil =>
      rw [(by decide : anchorTail ([] : List Char) = none)] at hend
      cases hend
    | cons c cs =>
      simp only [findTitleAnchor, hend]
  | cons c ts ih =>
    intro tail A rest hnl hfail hend
    rw [List.cons_append]
    simp only [findTitleAnchor]
    have h0 : anchorTail (c :: (ts ++ tail)) = none := by
      have := hfail 0 (by simp)
      simpa using this
    rw [h0]
    have hc : c ≠ '\n' := hnl c (by simp)
    show (if c = '\n' then none
        else Option.map (fun tar => (c :: tar.1, tar.2))
          (findTitleAnchor (ts ++ tail))) = some (c :: ts, A, rest)
    rw [if_neg hc, ih tail A rest (fun x hx => hnl x (by simp [hx]))
        (fun k hk => by simpa using hfail (k + 1) (by simpa using hk)) hend]
    rfl

/-- C6: a markdown heading line that matches the unanchored pattern but not
the anchored one is rewritten by `add_missing_anchors` to carry the
synthesized `autotoc<filenum>v<counter>` anchor, and reparsing the
rewritten line with the anchored pattern recovers the same hashes (hence
the same level) and the same title. -/
theorem C6_auto_anchor (filenum counter : Nat) (s h t : List Char)
    (hno : anchorMatch s = none) (hyes : noanchorMatch s = some (h, t)) :
    rewriteLine filenum counter s
      = (counter + 1,
         h ++ [' '] ++ t ++ str " \x7b#" ++ autoAnchor filenum (counter + 1)
           ++ str "\x7d") ∧
    anchorMatch ((rewriteLine filenum counter s).2)
      = some (h, t, autoAnchor filenum (counter + 1)) := by
  have hno0 := hno
  have hyes0 := hyes
  simp only [noanchorMatch] at hyes
  by_cases h1 : s.takeWhile (fun c => c == '#') = []
  · rw [if_pos h1] at hyes; cases hyes
  rw [if_neg h1] at hyes
  by_cases h2 : ((s.dropWhile (fun c => c == '#')).takeWhile isPySpace) = []
  · rw [if_pos h2] at hyes; cases hyes
  rw [if_neg h2] at hyes
  obtain ⟨t2, hft, hpair⟩ := Option.map_eq_some'.mp hyes
  obtain ⟨hh, ht2⟩ := Prod.mk.inj hpair
  subst hh
  subst ht2
  simp only [anchorMatch] at hno
  rw [if_neg h1, if_neg h2] at hno
  have hfa : findTitleAnchor
      ((s.dropWhile (fun c => c == '#')).dropWhile isPySpace) = none :=
    Option.map_eq_none'.mp hno
  obtain ⟨z, hr2eq, hz, hnl, hlast⟩ := findTitleEnd_spec _ _ hft
  have hA1 : autoAnchor filenum (counter + 1) ≠ [] := autoAnchor_ne_nil _ _
  have hA2 : ∀ c ∈ autoAnchor filenum (counter + 1), inAnchorClass c = true :=
    autoAnchor_class _ _
  have hhash : ∀ c ∈ s.takeWhile (fun c => c == '#'), (c == '#') = true := by
    intro c hc
    have h3 := mem_takeWhile hc
    exact h3
  have hres : rewriteLine filenum counter s
      = (counter + 1,
         s.takeWhile (fun c => c == '#') ++ [' '] ++ t2 ++ str " \x7b#"
           ++ autoAnchor filenum (counter + 1) ++ str "\x7d") := by
    simp [rewriteLine, hno0, hyes0]
  refine ⟨hres, ?_⟩
  rw [hres]
  show anchorMatch (s.takeWhile (fun c => c == '#') ++ [' '] ++ t2 ++ str " \x7b#"
        ++ autoAnchor filenum (counter + 1) ++ str "\x7d")
      = some (s.takeWhile (fun c => c == '#'), t2, autoAnchor filenum (counter + 1))
  have er : s.takeWhile (fun c => c == '#') ++ [' '] ++ t2 ++ str " \x7b#"
        ++ autoAnchor filenum (counter + 1) ++ str "\x7d"
      = s.takeWhile (fun c => c == '#')
          ++ (' ' :: (t2 ++ (' ' :: '\x7b' :: '#'
              :: (autoAnchor filenum (counter + 1) ++ ['\x7d'])))) := by
    rw [(by decide : str " \x7b#" = [' ', '\x7b', '#']),
      (by decide : str "\x7d" = ['\x7d'])]
    simp [List.append_assoc]
  rw [er]
  have hsw1 : (s.takeWhile (fun c => c == '#')
      ++ (' ' :: (t2 ++ (' ' :: '\x7b' :: '#'
          :: (autoAnchor filenum (counter + 1) ++ ['\x7d']))))).takeWhile
        (fun c => c == '#')
      = s.takeWhile (fun c => c == '#') := by
    rw [takeWhile_append_of_all _ hhash, takeWhile_eq_nil_of_head _ (by decide),
      List.append_nil]
  have hsw2 : (s.takeWhile (fun c => c == '#')
      ++ (' ' :: (t2 ++ (' ' :: '\x7b' :: '#'
          :: (autoAnchor filenum (counter + 1) ++ ['\x7d']))))).dropWhile
        (fun c => c == '#')
      = ' ' :: (t2 ++ (' ' :: '\x7b' :: '#'
          :: (autoAnchor filenum (counter + 1) ++ ['\x7d']))) := by
    rw [dropWhile_append_of_all _ hhash]
    exact dropWhile_eq_self_of_head _ (by decide)
  have hendY : anchorTail (' ' :: '\x7b' :: '#'
      :: (autoAnchor filenum (counter + 1) ++ ['\x7d']))
      = some (autoAnchor filenum (counter + 1), []) := by
    refine anchorTail_synth _ _ ?_ hA1 hA2
    rw [List.dropWhile_cons]
    simp only [(by decide : isPySpace ' ' = true), if_true]
    exact dropWhile_eq_self_of_head _ (by decide)
  have hmain : ((' ' :: (t2 ++ (' ' :: '\x7b' :: '#'
        :: (autoAnchor filenum (counter + 1) ++ ['\x7d'])))).takeWhile isPySpace ≠ []) ∧
      findTitleAnchor ((' ' :: (t2 ++ (' ' :: '\x7b' :: '#'
        :: (autoAnchor filenum (counter + 1) ++ ['\x7d'])))).dropWhile isPySpace)
        = some (t2, autoAnchor filenum (counter + 1), []) := by
    cases t2 with
    | nil =>
      constructor
      · simp only [List.nil_append, List.takeWhile_cons,
          (by decide : isPySpace ' ' = true), if_true]
        simp [takeWhile_eq_nil_of_head _ (by decide : isPySpace '\x7b' = false)]
      · have hdw : (' ' :: (([] : List Char) ++ (' ' :: '\x7b' :: '#'
            :: (autoAnchor filenum (counter + 1) ++ ['\x7d'])))).dropWhile isPySpace
            = '\x7b' :: '#' :: (autoAnchor filenum (counter + 1) ++ ['\x7d']) := by
          simp only [List.nil_append, List.dropWhile_cons,
            (by decide : isPySpace ' ' = true), if_true]
          exact dropWhile_eq_self_of_head _ (by decide : isPySpace '\x7b' = false)
        rw [hdw]
        simp only [findTitleAnchor]
        rw [anchorTail_synth _ _
          (dropWhile_eq_self_of_head _ (by decide : isPySpace '\x7b' = false))
          hA1 hA2]
    | cons t0 ts =>
      have hcons : (s.dropWhile (fun c => c == '#')).dropWhile isPySpace
          = t0 :: (ts ++ z) := by
        rw [hr2eq]; simp
      have ht0 : isPySpace t0 = false := dropWhile_head_false hcons
      constructor
      · rw [List.takeWhile_cons]
        simp only [(by decide : isPySpace ' ' = true), if_true]
        rw [List.cons_append, takeWhile_eq_nil_of_head _ ht0]
        simp
      · have hdw : (' ' :: ((t0 :: ts) ++ (' ' :: '\x7b' :: '#'
            :: (autoAnchor filenum (counter + 1) ++ ['\x7d'])))).dropWhile isPySpace
            = (t0 :: ts) ++ (' ' :: '\x7b' :: '#'
                :: (autoAnchor filenum (counter + 1) ++ ['\x7d'])) := by
          rw [List.dropWhile_cons]
          simp only [(by decide : isPySpace ' ' = true), if_true]
          rw [List.cons_append, dropWhile_eq_self_of_head _ ht0]
        rw [hdw]
        refine findTitleAnchor_build (t0 :: ts) _ _ _ hnl ?_ hendY
        have hfz : findTitleAnchor ((t0 :: ts) ++ z) = none := hr2eq ▸ hfa
        have hparts := findTitleAnchor_none_parts (t0 :: ts) z hfz hnl
        obtain ⟨u0, c0, hco⟩ :=
          (List.eq_nil_or_concat (t0 :: ts)).resolve_left (by simp)
        rw [List.concat_eq_append] at hco
        have hc0 : isPySpace c0 = false := hlast u0 c0 hco
        intro k hk
        have hk' : k ≤ u0.length := by
          have h2 := hk
          rw [hco, List.length_append] at h2
          simp at h2
          omega
        have hmem : c0 ∈ (t0 :: ts).drop k := by
          rw [hco, List.drop_append_eq_append_drop, Nat.sub_eq_zero_of_le hk']
          simp
        exact anchorTail_boundary _ _ _
          (dropWhile_ne_nil_of_mem_not hmem hc0) hz (hparts k (Nat.le_of_lt hk))
  simp only [anchorMatch]
  rw [hsw1, if_neg h1, hsw2, if_neg hmain.1, hmain.2]
  rfl

/-- Witness for C6 at the concrete heading line "## My Title\n" with file
number 3 and counter 0. -/
theorem C6_auto_anchor_witness :
    anchorMatch (str "## My Title\n") = none ∧
    noanchorMatch (str "## My Title\n") = some (str "##", str "My Title") ∧
    (rewriteLine 3 0 (str "## My Title\n")
        = (1, str "##" ++ [' '] ++ str "My Title" ++ str " \x7b#"
            ++ autoAnchor 3 1 ++ str "\x7d") ∧
      anchorMatch ((rewriteLine 3 0 (str "## My Title\n")).2)
        = some (str "##", str "My Title", autoAnchor 3 1)) :=
  ⟨by decide, by decide,
   C6_auto_anchor 3 0 (str "## My Title\n") (str "##") (str "My Title")
     (by decide) (by decide)⟩
